import Mathlib

/-!
Verification of the libcomfoair protocol core against its specification.

The development shallowly embeds the TypeScript sources:
byte buffers become lists of natural numbers, hex strings become lists of
hex digit values, fallible operations return Except, and the asynchronous
client logic becomes explicit state transition functions. Each definition
mirrors one function of the repository; the theorems at the end of the file
settle the specification claims C1 to C10.
-/

/-! ## Byte buffer primitives (Node Buffer operations used by the sources) -/

/-- A byte buffer, modelled as a list of natural numbers. Buffers produced by
the embedded code only contain values below 256. -/
abbrev Buf := List Nat

/-- Read the byte at an index, 0 when out of range. Every read performed by the
embedded code is guarded by an explicit length check in the source. -/
def readByte (data : Buf) (i : Nat) : Nat := data.getD i 0

/-- Node Buffer.readUInt32BE. -/
def readUInt32BE (data : Buf) (offset : Nat) : Nat :=
  readByte data offset * 16777216 + readByte data (offset + 1) * 65536 +
    readByte data (offset + 2) * 256 + readByte data (offset + 3)

/-- Node Buffer.readUInt16BE. -/
def readUInt16BE (data : Buf) (offset : Nat) : Nat :=
  readByte data offset * 256 + readByte data (offset + 1)

/-- The four bytes stored by Buffer.writeUInt32BE. Node validates that the
value fits in 32 bits; the claims restrict values to that range. -/
def writeUInt32BE (n : Nat) : Buf :=
  [n / 16777216 % 256, n / 65536 % 256, n / 256 % 256, n % 256]

/-- The two bytes stored by Buffer.writeUInt16BE. -/
def writeUInt16BE (n : Nat) : Buf := [n / 256 % 256, n % 256]

/-- Buffer.subarray index resolution: a negative index counts from the end of
the buffer and the result is clamped to the buffer bounds. -/
def jsIndex (len : Nat) (i : Int) : Nat :=
  if i < 0 then ((len : Int) + i).toNat else min i.toNat len

/-- Node Buffer.subarray. -/
def jsSubarray (data : Buf) (start stop : Int) : Buf :=
  (data.take (jsIndex data.length stop)).drop (jsIndex data.length start)

/-! ## Hex string primitives

UUID strings are modelled by the values of their hex characters: Buffer hex
parsing is case insensitive and toString with hex encoding emits lowercase, so
a hex string in canonical form is exactly a list of digit values. -/

/-- One hexadecimal character of a UUID string, by value. -/
abbrev HexDigit := Fin 16

/-- String.padStart(32, zero) as applied to uuid strings by the
ComfoControlHeader constructor. -/
def padStart32 (uuid : List HexDigit) : List HexDigit :=
  List.replicate (32 - uuid.length) 0 ++ uuid

/-- Buffer.write with hex encoding turns consecutive digit pairs into bytes;
a trailing unpaired digit is ignored. -/
def hexPairsToBytes : List HexDigit → Buf
  | [] => []
  | [_] => []
  | d0 :: d1 :: rest => (d0.val * 16 + d1.val) :: hexPairsToBytes rest

/-- Buffer.toString with hex encoding turns every byte into two digits. -/
def bytesToHexDigits : Buf → List HexDigit
  | [] => []
  | b :: rest => ⟨b / 16 % 16, by omega⟩ :: ⟨b % 16, by omega⟩ :: bytesToHexDigits rest

/-- Writing a uuid string into the 16 reserved header bytes: Buffer.write
stores at most 16 decoded bytes and the bytes that are not written keep the
zero fill of Buffer.alloc. -/
def hexWrite16 (uuid : List HexDigit) : Buf :=
  let bs := (hexPairsToBytes uuid).take 16
  bs ++ List.replicate (16 - bs.length) 0

/-! ## ComfoControlHeader (src/unnamed/part_003) -/

/-- All ComfoAir messages start with a 38 byte header. -/
def COMFO_MESSAGE_HEADER_LENGTH : Nat := 38

/-- The envelope header. The messageLength field is an Int because fromBinary
derives it by subtraction, which in JavaScript can become negative for an
inconsistent header. -/
structure ComfoControlHeader where
  senderUuid : List HexDigit
  receiverUuid : List HexDigit
  opLength : Nat
  messageLength : Int
deriving DecidableEq, Repr

/-- The ComfoControlHeader constructor: both uuids are padded on the left with
zeros to 32 hex characters. -/
def ComfoControlHeader.make (senderUuid receiverUuid : List HexDigit)
    (opLength : Nat) (messageLength : Int) : ComfoControlHeader :=
  ⟨padStart32 senderUuid, padStart32 receiverUuid, opLength, messageLength⟩

/-- Getter length: total length of the message including op and msg data. -/
def ComfoControlHeader.length (h : ComfoControlHeader) : Int :=
  (COMFO_MESSAGE_HEADER_LENGTH : Int) + h.opLength + h.messageLength

/-- Getter messageOffset. -/
def ComfoControlHeader.messageOffset (h : ComfoControlHeader) : Nat :=
  h.opLength + COMFO_MESSAGE_HEADER_LENGTH

/-- Getter opOffset. -/
def ComfoControlHeader.opOffset (_ : ComfoControlHeader) : Nat :=
  COMFO_MESSAGE_HEADER_LENGTH

/-- The failure kinds of envelope decoding. The source throws Error values
carrying a descriptive message; the embedding records which length check
failed. -/
inductive WireError
  | frameTooShort
  | truncatedOperation
  | truncatedPayload
deriving DecidableEq, Repr

/-- ComfoControlHeader.fromBinary. -/
def ComfoControlHeader.fromBinary (data : Buf) (offset : Nat) :
    Except WireError ComfoControlHeader :=
  if (data.length : Int) - (offset : Int) < (COMFO_MESSAGE_HEADER_LENGTH : Int) then
    .error .frameTooShort
  else
    let totalLength := readUInt32BE data offset + 4
    let senderUuid := bytesToHexDigits (jsSubarray data (4 + (offset : Int)) (20 + (offset : Int)))
    let receiverUuid := bytesToHexDigits (jsSubarray data (20 + (offset : Int)) (36 + (offset : Int)))
    let opLength := readUInt16BE data (36 + offset)
    let messageLength := (totalLength : Int) - (COMFO_MESSAGE_HEADER_LENGTH : Int) - (opLength : Int)
    .ok (ComfoControlHeader.make senderUuid receiverUuid opLength messageLength)

/-- ComfoControlHeader.toBinary: the source writes into a zero filled 38 byte
allocation at offsets 0, 4, 20 and 36; the four written sections concatenate
exactly to the 38 bytes. -/
def ComfoControlHeader.toBinary (h : ComfoControlHeader) : Buf :=
  writeUInt32BE (h.length - 4).toNat ++ hexWrite16 h.senderUuid ++
    hexWrite16 h.receiverUuid ++ writeUInt16BE h.opLength

/-- ComfoControlHeader.getOperationBuffer. -/
def ComfoControlHeader.getOperationBuffer (h : ComfoControlHeader) (data : Buf)
    (offset : Nat) : Except WireError Buf :=
  if (data.length : Int) - (offset : Int) < (h.opOffset : Int) + (h.opLength : Int) then
    .error .truncatedOperation
  else
    .ok (jsSubarray data ((h.opOffset : Int) + offset) ((h.opOffset : Int) + h.opLength + offset))

/-- ComfoControlHeader.getMessageBuffer. -/
def ComfoControlHeader.getMessageBuffer (h : ComfoControlHeader) (data : Buf)
    (offset : Nat) : Except WireError Buf :=
  if (data.length : Int) - (offset : Int) < (h.messageOffset : Int) + h.messageLength then
    .error .truncatedPayload
  else
    .ok (jsSubarray data ((h.messageOffset : Int) + offset)
      ((h.messageOffset : Int) + h.messageLength + offset))

/-! ## Hex and byte lemmas -/

theorem hexPairsToBytes_length : ∀ (l : List HexDigit),
    (hexPairsToBytes l).length = l.length / 2
  | [] => rfl
  | [_] => by simp [hexPairsToBytes]
  | _ :: _ :: rest => by
      have ih := hexPairsToBytes_length rest
      simp [hexPairsToBytes, ih]
      omega

theorem bytesToHexDigits_hexPairsToBytes : ∀ (l : List HexDigit),
    l.length % 2 = 0 → bytesToHexDigits (hexPairsToBytes l) = l
  | [], _ => rfl
  | [_], h => by simp at h
  | d0 :: d1 :: rest, h => by
      have hlen : rest.length % 2 = 0 := by
        simp only [List.length_cons] at h
        omega
      have ih := bytesToHexDigits_hexPairsToBytes rest hlen
      have hd0 : d0.val < 16 := d0.isLt
      have hd1 : d1.val < 16 := d1.isLt
      simp only [hexPairsToBytes, bytesToHexDigits, ih, List.cons.injEq, and_true]
      constructor
      · apply Fin.ext
        show (d0.val * 16 + d1.val) / 16 % 16 = d0.val
        omega
      · apply Fin.ext
        show (d0.val * 16 + d1.val) % 16 = d1.val
        omega

theorem padStart32_length (l : List HexDigit) (h : l.length ≤ 32) :
    (padStart32 l).length = 32 := by
  simp [padStart32]
  omega

theorem padStart32_of_length32 (l : List HexDigit) (h : l.length = 32) :
    padStart32 l = l := by
  simp [padStart32, h]

theorem hexWrite16_of_length32 (l : List HexDigit) (h : l.length = 32) :
    hexWrite16 l = hexPairsToBytes l := by
  have hlen : (hexPairsToBytes l).length = 16 := by
    rw [hexPairsToBytes_length, h]
  simp only [hexWrite16]
  rw [List.take_of_length_le (le_of_eq hlen), hlen]
  simp

theorem hexWrite16_length (l : List HexDigit) : (hexWrite16 l).length = 16 := by
  simp only [hexWrite16, List.length_append, List.length_take, List.length_replicate]
  omega

theorem toBinary_length (h : ComfoControlHeader) : h.toBinary.length = 38 := by
  simp [ComfoControlHeader.toBinary, writeUInt32BE, writeUInt16BE, hexWrite16_length]

theorem readByte_append_right (pre l : Buf) (i : Nat) :
    readByte (pre ++ l) (pre.length + i) = readByte l i := by
  unfold readByte
  rw [List.getD_append_right _ _ _ _ (Nat.le_add_right _ _), Nat.add_sub_cancel_left]

theorem readByte_cons_succ (a : Nat) (l : Buf) (i : Nat) :
    readByte (a :: l) (i + 1) = readByte l i := rfl

theorem readByte_cons_zero (a : Nat) (l : Buf) : readByte (a :: l) 0 = a := rfl

theorem readUInt32BE_writeUInt32BE (n : Nat) (rest : Buf) (h : n < 4294967296) :
    readUInt32BE (writeUInt32BE n ++ rest) 0 = n := by
  show readUInt32BE (n / 16777216 % 256 :: n / 65536 % 256 :: n / 256 % 256 :: n % 256 :: rest) 0 = n
  simp only [readUInt32BE, readByte, List.getD_cons_zero, List.getD_cons_succ]
  omega

theorem jsIndex_coe (len n : Nat) : jsIndex len (n : Int) = min n len := by
  unfold jsIndex
  rw [if_neg (by omega)]
  simp

theorem jsSubarray_append_section (A B rest : Buf) (a b : Nat)
    (hA : A.length = a) (hB : B.length = b) :
    jsSubarray (A ++ B ++ rest) (a : Int) ((a : Int) + (b : Int)) = B := by
  have hlen : (A ++ B ++ rest).length = a + b + rest.length := by
    simp [hA, hB]
    omega
  have hcast : (a : Int) + (b : Int) = ((a + b : Nat) : Int) := by
    push_cast
    ring
  rw [jsSubarray, hcast, jsIndex_coe, jsIndex_coe, hlen]
  rw [Nat.min_eq_left (by omega), Nat.min_eq_left (by omega)]
  rw [List.take_left' (by simp [hA, hB] : (A ++ B).length = a + b)]
  exact List.drop_left' hA

/-! ## Header codec round trip -/

theorem fromBinary_toBinary_append
    (s r : List HexDigit) (op msg : Nat) (rest : Buf)
    (hs : s.length ≤ 32) (hr : r.length ≤ 32) (hop : op < 65536)
    (htot : 34 + op + msg < 4294967296) :
    ComfoControlHeader.fromBinary
        ((ComfoControlHeader.make s r op (msg : Int)).toBinary ++ rest) 0 =
      .ok ⟨padStart32 s, padStart32 r, op, (msg : Int)⟩ := by
  have hps : (padStart32 s).length = 32 := padStart32_length s hs
  have hpr : (padStart32 r).length = 32 := padStart32_length r hr
  have hS : (hexPairsToBytes (padStart32 s)).length = 16 := by
    rw [hexPairsToBytes_length, hps]
  have hR : (hexPairsToBytes (padStart32 r)).length = 16 := by
    rw [hexPairsToBytes_length, hpr]
  have hdata : (ComfoControlHeader.make s r op (msg : Int)).toBinary ++ rest =
      writeUInt32BE (34 + op + msg) ++ (hexPairsToBytes (padStart32 s) ++
        (hexPairsToBytes (padStart32 r) ++ (writeUInt16BE op ++ rest))) := by
    simp only [ComfoControlHeader.toBinary, ComfoControlHeader.make,
      ComfoControlHeader.length, COMFO_MESSAGE_HEADER_LENGTH,
      hexWrite16_of_length32 _ hps, hexWrite16_of_length32 _ hpr,
      List.append_assoc]
    congr 2
    omega
  rw [hdata]
  have hlen : (writeUInt32BE (34 + op + msg) ++ (hexPairsToBytes (padStart32 s) ++
      (hexPairsToBytes (padStart32 r) ++ (writeUInt16BE op ++ rest)))).length =
      38 + rest.length := by
    simp [writeUInt32BE, writeUInt16BE, hS, hR]
    omega
  have hread32 : readUInt32BE (writeUInt32BE (34 + op + msg) ++ (hexPairsToBytes (padStart32 s) ++
      (hexPairsToBytes (padStart32 r) ++ (writeUInt16BE op ++ rest)))) 0 = 34 + op + msg :=
    readUInt32BE_writeUInt32BE _ _ (by omega)
  have hsen : jsSubarray (writeUInt32BE (34 + op + msg) ++ (hexPairsToBytes (padStart32 s) ++
      (hexPairsToBytes (padStart32 r) ++ (writeUInt16BE op ++ rest)))) (4 : Int) (20 : Int) =
      hexPairsToBytes (padStart32 s) := by
    have h4 : (writeUInt32BE (34 + op + msg)).length = 4 := by simp [writeUInt32BE]
    have := jsSubarray_append_section (writeUInt32BE (34 + op + msg))
      (hexPairsToBytes (padStart32 s))
      (hexPairsToBytes (padStart32 r) ++ (writeUInt16BE op ++ rest)) 4 16 h4 hS
    norm_num at this
    simpa [List.append_assoc] using this
  have hrec : jsSubarray (writeUInt32BE (34 + op + msg) ++ (hexPairsToBytes (padStart32 s) ++
      (hexPairsToBytes (padStart32 r) ++ (writeUInt16BE op ++ rest)))) (20 : Int) (36 : Int) =
      hexPairsToBytes (padStart32 r) := by
    have h20 : (writeUInt32BE (34 + op + msg) ++ hexPairsToBytes (padStart32 s)).length = 20 := by
      simp [writeUInt32BE, hS]
    have := jsSubarray_append_section
      (writeUInt32BE (34 + op + msg) ++ hexPairsToBytes (padStart32 s))
      (hexPairsToBytes (padStart32 r)) (writeUInt16BE op ++ rest) 20 16 h20 hR
    norm_num at this
    simpa [List.append_assoc] using this
  have hop16 : readUInt16BE (writeUInt32BE (34 + op + msg) ++ (hexPairsToBytes (padStart32 s) ++
      (hexPairsToBytes (padStart32 r) ++ (writeUInt16BE op ++ rest)))) 36 = op := by
    have h36 : (writeUInt32BE (34 + op + msg) ++ hexPairsToBytes (padStart32 s) ++
        hexPairsToBytes (padStart32 r)).length = 36 := by
      simp [writeUInt32BE, hS, hR]
    have e0 := readByte_append_right (writeUInt32BE (34 + op + msg) ++
      hexPairsToBytes (padStart32 s) ++ hexPairsToBytes (padStart32 r))
      (writeUInt16BE op ++ rest) 0
    have e1 := readByte_append_right (writeUInt32BE (34 + op + msg) ++
      hexPairsToBytes (padStart32 s) ++ hexPairsToBytes (padStart32 r))
      (writeUInt16BE op ++ rest) 1
    rw [h36] at e0 e1
    simp only [List.append_assoc] at e0 e1
    unfold readUInt16BE
    rw [show 36 + 1 = 37 from rfl] at e1
    rw [show (36 : Nat) + 0 = 36 from rfl] at e0
    rw [e0, e1]
    show (op / 256 % 256 :: op % 256 :: rest).getD 0 0 * 256 + (op / 256 % 256 :: op % 256 :: rest).getD 1 0 = op
    simp only [List.getD_cons_zero, List.getD_cons_succ]
    omega
  have hbs : bytesToHexDigits (hexPairsToBytes (padStart32 s)) = padStart32 s :=
    bytesToHexDigits_hexPairsToBytes _ (by rw [hps])
  have hbr : bytesToHexDigits (hexPairsToBytes (padStart32 r)) = padStart32 r :=
    bytesToHexDigits_hexPairsToBytes _ (by rw [hpr])
  simp only [ComfoControlHeader.fromBinary, COMFO_MESSAGE_HEADER_LENGTH]
  rw [if_neg (by rw [hlen]; push_cast; omega)]
  simp only [Nat.cast_zero, add_zero, Nat.cast_ofNat, CharP.cast_eq_zero]
  norm_num
  rw [hsen, hrec, hop16, hread32, hbs, hbr]
  simp only [ComfoControlHeader.make, padStart32_of_length32 _ hps, padStart32_of_length32 _ hpr,
    ComfoControlHeader.mk.injEq, true_and]
  push_cast
  omega

theorem readUInt32BE_toBinary (s r : List HexDigit) (op msg : Nat)
    (htot : 34 + op + msg < 4294967296) :
    readUInt32BE (ComfoControlHeader.make s r op (msg : Int)).toBinary 0 = 34 + op + msg := by
  have hdata2 : (ComfoControlHeader.make s r op (msg : Int)).toBinary =
      writeUInt32BE (34 + op + msg) ++ (hexWrite16 (padStart32 s) ++
        (hexWrite16 (padStart32 r) ++ writeUInt16BE op)) := by
    simp only [ComfoControlHeader.toBinary, ComfoControlHeader.make,
      ComfoControlHeader.length, COMFO_MESSAGE_HEADER_LENGTH, List.append_assoc]
    congr 2
    omega
  rw [hdata2, readUInt32BE_writeUInt32BE _ _ (by omega)]

/-- C1: envelope header codec round trip. For every sender and receiver uuid of
at most 32 hex characters, every opLength below 65536 and every messageLength
with 38 + opLength + messageLength - 4 in the u32 range, toBinary produces a
38 byte buffer whose first four bytes hold the big endian value
38 + opLength + messageLength - 4, and fromBinary of that buffer recovers the
same opLength, the same messageLength, and both uuids zero padded on the left
to 32 hex characters. -/
theorem C1_envelope_header_roundtrip
    (s r : List HexDigit) (op msg : Nat)
    (hs : s.length ≤ 32) (hr : r.length ≤ 32) (hop : op < 65536)
    (htot : 34 + op + msg < 4294967296) :
    ((ComfoControlHeader.make s r op (msg : Int)).toBinary.length = 38) ∧
    (readUInt32BE (ComfoControlHeader.make s r op (msg : Int)).toBinary 0 =
      38 + op + msg - 4) ∧
    (ComfoControlHeader.fromBinary (ComfoControlHeader.make s r op (msg : Int)).toBinary 0 =
      .ok ⟨padStart32 s, padStart32 r, op, (msg : Int)⟩) := by
  refine ⟨toBinary_length _, ?_, ?_⟩
  · rw [readUInt32BE_toBinary s r op msg htot]
    omega
  · have h := fromBinary_toBinary_append s r op msg [] hs hr hop htot
    simpa using h

/-- C1 witness: sender uuid consisting of the single hex character 1, receiver
uuid consisting of the single hex character 2, opLength 10 and messageLength
20 give a 38 byte buffer whose first four bytes hold 64, sender uuid 31 zeros
followed by 1, and the codec round trips. -/
theorem C1_envelope_header_roundtrip_witness :
    ((ComfoControlHeader.make [1] [2] 10 (20 : Int)).toBinary.length = 38) ∧
    (readUInt32BE (ComfoControlHeader.make [1] [2] 10 (20 : Int)).toBinary 0 = 64) ∧
    (ComfoControlHeader.fromBinary (ComfoControlHeader.make [1] [2] 10 (20 : Int)).toBinary 0 =
      .ok ⟨List.replicate 31 0 ++ [1], List.replicate 31 0 ++ [2], 10, (20 : Int)⟩) ∧
    (ComfoControlHeader.make [1] [2] 10 (20 : Int)).senderUuid =
      List.replicate 31 (0 : HexDigit) ++ [1] := by
  have h := C1_envelope_header_roundtrip [1] [2] 10 20 (by decide) (by decide) (by decide)
    (by decide)
  norm_num at h
  have hp1 : padStart32 [1] = List.replicate 31 (0 : HexDigit) ++ [1] := by decide
  have hp2 : padStart32 [2] = List.replicate 31 (0 : HexDigit) ++ [2] := by decide
  refine ⟨h.1, ?_, ?_, ?_⟩
  · rw [h.2.1]
  · rw [h.2.2, hp1, hp2]
  · show padStart32 [1] = _
    exact hp1

/-! ## ComfoControlMessage.fromBinary (src/src/comfoControlMessage.ts) -/

/-- One decoded envelope: the operation bytes (decoded by the external
protobuf collaborator GatewayOperation, modelled by the raw buffer) and the
payload bytes. -/
structure ComfoControlMessage where
  operation : Buf
  message : Buf
deriving DecidableEq, Repr

/-- The decode loop of ComfoControlMessage.fromBinary. The source advances the
offset by header.length; for every header returned by fromBinary that value
equals the totalLength field plus 4 (lemma fromBinary_ok_length below), and
the loop is written with that form so that termination is structural in the
remaining length. -/
def fromBinaryLoop (data : Buf) (offset : Nat) : Except WireError (List ComfoControlMessage) :=
  if _h : offset < data.length then
    match ComfoControlHeader.fromBinary data offset with
    | .error e => .error e
    | .ok header =>
      match header.getOperationBuffer data offset with
      | .error e => .error e
      | .ok operation =>
        match header.getMessageBuffer data offset with
        | .error e => .error e
        | .ok message =>
          match fromBinaryLoop data (offset + (readUInt32BE data offset + 4)) with
          | .error e => .error e
          | .ok msgs => .ok (ComfoControlMessage.mk operation message :: msgs)
  else .ok []
termination_by data.length - offset
decreasing_by omega

/-- ComfoControlMessage.fromBinary parses a buffer that may contain several
concatenated envelopes. -/
def ComfoControlMessage.fromBinary (data : Buf) : Except WireError (List ComfoControlMessage) :=
  fromBinaryLoop data 0

/-- For every successfully parsed header, the getter length equals the
totalLength field plus 4, which justifies the loop advance above. -/
theorem fromBinary_ok_length (data : Buf) (offset : Nat) (h : ComfoControlHeader)
    (hok : ComfoControlHeader.fromBinary data offset = .ok h) :
    h.length = (readUInt32BE data offset : Int) + 4 := by
  unfold ComfoControlHeader.fromBinary at hok
  split at hok
  · exact absurd hok (by simp)
  · simp only [Except.ok.injEq] at hok
    subst hok
    simp only [ComfoControlHeader.make, ComfoControlHeader.length, COMFO_MESSAGE_HEADER_LENGTH]
    push_cast
    ring

/-! ## Offset shift lemmas: every read of the decode loop is relative to the
current offset, so parsing at an offset behind a prefix equals parsing the
suffix at the shifted offset. -/

theorem readUInt32BE_append_right (pre l : Buf) (off : Nat) :
    readUInt32BE (pre ++ l) (pre.length + off) = readUInt32BE l off := by
  unfold readUInt32BE
  rw [show pre.length + off + 1 = pre.length + (off + 1) by omega,
    show pre.length + off + 2 = pre.length + (off + 2) by omega,
    show pre.length + off + 3 = pre.length + (off + 3) by omega,
    readByte_append_right, readByte_append_right, readByte_append_right,
    readByte_append_right]

theorem readUInt16BE_append_right (pre l : Buf) (off : Nat) :
    readUInt16BE (pre ++ l) (pre.length + off) = readUInt16BE l off := by
  unfold readUInt16BE
  rw [show pre.length + off + 1 = pre.length + (off + 1) by omega,
    readByte_append_right, readByte_append_right]

theorem jsIndex_add_left (plen len : Nat) (i : Int) (hi : 0 ≤ i) :
    jsIndex (plen + len) ((plen : Int) + i) = plen + jsIndex len i := by
  unfold jsIndex
  rw [if_neg (by omega), if_neg (by omega)]
  omega

theorem jsSubarray_append_left (pre l : Buf) (s e : Int) (hs : 0 ≤ s) (he : 0 ≤ e) :
    jsSubarray (pre ++ l) ((pre.length : Int) + s) ((pre.length : Int) + e) =
      jsSubarray l s e := by
  unfold jsSubarray
  rw [List.length_append, jsIndex_add_left _ _ _ he, jsIndex_add_left _ _ _ hs,
    List.take_append, List.drop_append]

theorem header_fromBinary_append_left (pre l : Buf) (off : Nat) :
    ComfoControlHeader.fromBinary (pre ++ l) (pre.length + off) =
      ComfoControlHeader.fromBinary l off := by
  have e32 : readUInt32BE (pre ++ l) (pre.length + off) = readUInt32BE l off :=
    readUInt32BE_append_right pre l off
  have e16 : readUInt16BE (pre ++ l) (36 + (pre.length + off)) = readUInt16BE l (36 + off) := by
    rw [show 36 + (pre.length + off) = pre.length + (36 + off) by omega,
      readUInt16BE_append_right]
  have es : jsSubarray (pre ++ l) (4 + ((pre.length + off : Nat) : Int))
      (20 + ((pre.length + off : Nat) : Int)) =
      jsSubarray l (4 + (off : Int)) (20 + (off : Int)) := by
    rw [show (4 : Int) + ((pre.length + off : Nat) : Int) =
        (pre.length : Int) + (4 + (off : Int)) by push_cast; ring,
      show (20 : Int) + ((pre.length + off : Nat) : Int) =
        (pre.length : Int) + (20 + (off : Int)) by push_cast; ring,
      jsSubarray_append_left _ _ _ _ (by omega) (by omega)]
  have er : jsSubarray (pre ++ l) (20 + ((pre.length + off : Nat) : Int))
      (36 + ((pre.length + off : Nat) : Int)) =
      jsSubarray l (20 + (off : Int)) (36 + (off : Int)) := by
    rw [show (20 : Int) + ((pre.length + off : Nat) : Int) =
        (pre.length : Int) + (20 + (off : Int)) by push_cast; ring,
      show (36 : Int) + ((pre.length + off : Nat) : Int) =
        (pre.length : Int) + (36 + (off : Int)) by push_cast; ring,
      jsSubarray_append_left _ _ _ _ (by omega) (by omega)]
  have hguard : (((pre ++ l).length : Int) - ((pre.length + off : Nat) : Int) <
      (COMFO_MESSAGE_HEADER_LENGTH : Int)) ↔
      ((l.length : Int) - (off : Int) < (COMFO_MESSAGE_HEADER_LENGTH : Int)) := by
    simp only [List.length_append, COMFO_MESSAGE_HEADER_LENGTH]
    push_cast
    omega
  unfold ComfoControlHeader.fromBinary
  simp only [e32, e16, es, er]
  exact if_congr hguard rfl rfl

theorem getOperationBuffer_append_left (h : ComfoControlHeader) (pre l : Buf) (off : Nat) :
    h.getOperationBuffer (pre ++ l) (pre.length + off) = h.getOperationBuffer l off := by
  have hguard : (((pre ++ l).length : Int) - ((pre.length + off : Nat) : Int) <
      (h.opOffset : Int) + (h.opLength : Int)) ↔
      ((l.length : Int) - (off : Int) < (h.opOffset : Int) + (h.opLength : Int)) := by
    simp only [List.length_append]
    push_cast
    omega
  have es : jsSubarray (pre ++ l) ((h.opOffset : Int) + ((pre.length + off : Nat) : Int))
      ((h.opOffset : Int) + (h.opLength : Int) + ((pre.length + off : Nat) : Int)) =
      jsSubarray l ((h.opOffset : Int) + (off : Int))
        ((h.opOffset : Int) + (h.opLength : Int) + (off : Int)) := by
    rw [show (h.opOffset : Int) + ((pre.length + off : Nat) : Int) =
        (pre.length : Int) + ((h.opOffset : Int) + (off : Int)) by push_cast; ring,
      show (h.opOffset : Int) + (h.opLength : Int) + ((pre.length + off : Nat) : Int) =
        (pre.length : Int) + ((h.opOffset : Int) + (h.opLength : Int) + (off : Int)) by
          push_cast; ring,
      jsSubarray_append_left _ _ _ _ (by omega) (by omega)]
  unfold ComfoControlHeader.getOperationBuffer
  simp only [es]
  exact if_congr hguard rfl rfl

theorem getMessageBuffer_append_left (h : ComfoControlHeader) (pre l : Buf) (off : Nat)
    (hnn : 0 ≤ (h.messageOffset : Int) + h.messageLength) :
    h.getMessageBuffer (pre ++ l) (pre.length + off) = h.getMessageBuffer l off := by
  have hguard : (((pre ++ l).length : Int) - ((pre.length + off : Nat) : Int) <
      (h.messageOffset : Int) + h.messageLength) ↔
      ((l.length : Int) - (off : Int) < (h.messageOffset : Int) + h.messageLength) := by
    simp only [List.length_append]
    push_cast
    omega
  have es : jsSubarray (pre ++ l) ((h.messageOffset : Int) + ((pre.length + off : Nat) : Int))
      ((h.messageOffset : Int) + h.messageLength + ((pre.length + off : Nat) : Int)) =
      jsSubarray l ((h.messageOffset : Int) + (off : Int))
        ((h.messageOffset : Int) + h.messageLength + (off : Int)) := by
    rw [show (h.messageOffset : Int) + ((pre.length + off : Nat) : Int) =
        (pre.length : Int) + ((h.messageOffset : Int) + (off : Int)) by push_cast; ring,
      show (h.messageOffset : Int) + h.messageLength + ((pre.length + off : Nat) : Int) =
        (pre.length : Int) + ((h.messageOffset : Int) + h.messageLength + (off : Int)) by
          push_cast; ring,
      jsSubarray_append_left _ _ _ _ (by omega) (by omega)]
  unfold ComfoControlHeader.getMessageBuffer
  simp only [es]
  exact if_congr hguard rfl rfl

theorem messageOffset_add_messageLength (h : ComfoControlHeader) :
    (h.messageOffset : Int) + h.messageLength = h.length := by
  simp only [ComfoControlHeader.messageOffset, ComfoControlHeader.length,
    COMFO_MESSAGE_HEADER_LENGTH]
  push_cast
  ring

theorem fromBinaryLoop_append_left_aux (pre l : Buf) :
    ∀ (n off : Nat), l.length - off ≤ n →
      fromBinaryLoop (pre ++ l) (pre.length + off) = fromBinaryLoop l off := by
  intro n
  induction n with
  | zero =>
    intro off hle
    unfold fromBinaryLoop
    rw [dif_neg (by simp only [List.length_append]; omega), dif_neg (by omega)]
  | succ n ih =>
    intro off hle
    by_cases hoff : off < l.length
    · unfold fromBinaryLoop
      rw [dif_pos (by simp only [List.length_append]; omega), dif_pos hoff,
        header_fromBinary_append_left]
      cases hh : ComfoControlHeader.fromBinary l off with
      | error e => rfl
      | ok header =>
        dsimp only
        rw [getOperationBuffer_append_left]
        cases hop : header.getOperationBuffer l off with
        | error e => rfl
        | ok operation =>
          dsimp only
          have hnn : 0 ≤ (header.messageOffset : Int) + header.messageLength := by
            rw [messageOffset_add_messageLength, fromBinary_ok_length l off header hh]
            positivity
          rw [getMessageBuffer_append_left header pre l off hnn]
          cases hmsg : header.getMessageBuffer l off with
          | error e => rfl
          | ok message =>
            dsimp only
            rw [readUInt32BE_append_right,
              show pre.length + off + (readUInt32BE l off + 4) =
                pre.length + (off + (readUInt32BE l off + 4)) by omega,
              ih (off + (readUInt32BE l off + 4)) (by omega)]
    · unfold fromBinaryLoop
      rw [dif_neg (by simp only [List.length_append]; omega), dif_neg (by omega)]

theorem fromBinaryLoop_append_left (pre l : Buf) (off : Nat) :
    fromBinaryLoop (pre ++ l) (pre.length + off) = fromBinaryLoop l off :=
  fromBinaryLoop_append_left_aux pre l l.length off (by omega)

/-! ## Well formed envelopes (ComfoControlTransport.prepareMessage) -/

/-- One outgoing envelope before framing: uuids, operation bytes and payload
bytes. -/
structure WireEnvelope where
  sender : List HexDigit
  receiver : List HexDigit
  opBytes : Buf
  payloadBytes : Buf
deriving DecidableEq, Repr

/-- Well formedness as guaranteed by the transport: uuids of at most 32 hex
characters, operation length in the u16 range and total length in the u32
range. -/
def WireEnvelope.wf (e : WireEnvelope) : Prop :=
  e.sender.length ≤ 32 ∧ e.receiver.length ≤ 32 ∧ e.opBytes.length < 65536 ∧
    34 + e.opBytes.length + e.payloadBytes.length < 4294967296

instance (e : WireEnvelope) : Decidable e.wf := by
  unfold WireEnvelope.wf
  infer_instance

/-- ComfoControlTransport.prepareMessage framing: header bytes, then the
operation bytes, then the payload bytes. -/
def encodeEnvelope (e : WireEnvelope) : Buf :=
  (ComfoControlHeader.make e.sender e.receiver e.opBytes.length
    (e.payloadBytes.length : Int)).toBinary ++ e.opBytes ++ e.payloadBytes

/-- The message the decode loop is expected to produce for one envelope. -/
def envMessage (e : WireEnvelope) : ComfoControlMessage :=
  ⟨e.opBytes, e.payloadBytes⟩

theorem encodeEnvelope_length (e : WireEnvelope) :
    (encodeEnvelope e).length = 38 + e.opBytes.length + e.payloadBytes.length := by
  simp [encodeEnvelope, toBinary_length]
  omega

theorem readUInt32BE_toBinary_append (s r : List HexDigit) (op msg : Nat) (rest : Buf)
    (htot : 34 + op + msg < 4294967296) :
    readUInt32BE ((ComfoControlHeader.make s r op (msg : Int)).toBinary ++ rest) 0 =
      34 + op + msg := by
  have hdata2 : (ComfoControlHeader.make s r op (msg : Int)).toBinary ++ rest =
      writeUInt32BE (34 + op + msg) ++ (hexWrite16 (padStart32 s) ++
        (hexWrite16 (padStart32 r) ++ (writeUInt16BE op ++ rest))) := by
    simp only [ComfoControlHeader.toBinary, ComfoControlHeader.make,
      ComfoControlHeader.length, COMFO_MESSAGE_HEADER_LENGTH, List.append_assoc]
    congr 2
    omega
  rw [hdata2, readUInt32BE_writeUInt32BE _ _ (by omega)]

theorem getOperationBuffer_frame (h : ComfoControlHeader) (opB payB rest : Buf)
    (hlen : h.opLength = opB.length) :
    h.getOperationBuffer (h.toBinary ++ (opB ++ (payB ++ rest))) 0 = .ok opB := by
  have hdlen : (h.toBinary ++ (opB ++ (payB ++ rest))).length =
      38 + opB.length + payB.length + rest.length := by
    simp [toBinary_length]
    omega
  unfold ComfoControlHeader.getOperationBuffer ComfoControlHeader.opOffset
  rw [if_neg (by rw [hdlen, hlen]; push_cast; norm_num [COMFO_MESSAGE_HEADER_LENGTH]; omega)]
  have Hsec := jsSubarray_append_section h.toBinary opB (payB ++ rest) 38 opB.length
    (toBinary_length h) rfl
  rw [Except.ok.injEq]
  convert Hsec using 2 <;>
    simp [COMFO_MESSAGE_HEADER_LENGTH, hlen, List.append_assoc]

theorem getMessageBuffer_frame (h : ComfoControlHeader) (opB payB rest : Buf)
    (hlen : h.opLength = opB.length) (hmsg : h.messageLength = (payB.length : Int)) :
    h.getMessageBuffer (h.toBinary ++ (opB ++ (payB ++ rest))) 0 = .ok payB := by
  have hdlen : (h.toBinary ++ (opB ++ (payB ++ rest))).length =
      38 + opB.length + payB.length + rest.length := by
    simp [toBinary_length]
    omega
  unfold ComfoControlHeader.getMessageBuffer ComfoControlHeader.messageOffset
  rw [if_neg (by
    rw [hdlen]
    simp only [COMFO_MESSAGE_HEADER_LENGTH, hlen, hmsg]
    push_cast
    omega)]
  have Hsec := jsSubarray_append_section (h.toBinary ++ opB) payB rest (38 + opB.length)
    payB.length (by simp [toBinary_length]) rfl
  rw [Except.ok.injEq]
  convert Hsec using 2 <;>
    (try simp [COMFO_MESSAGE_HEADER_LENGTH, hlen, hmsg, List.append_assoc]) <;>
    (try omega)

/-- Decoding one well formed envelope at the front of a buffer yields its
message and continues at the next envelope boundary. -/
theorem fromBinaryLoop_frame (e : WireEnvelope) (rest : Buf) (hwf : e.wf) :
    fromBinaryLoop (encodeEnvelope e ++ rest) 0 =
      Except.map (fun msgs => envMessage e :: msgs) (fromBinaryLoop rest 0) := by
  obtain ⟨hs, hr, hop, htot⟩ := hwf
  have hassoc : encodeEnvelope e ++ rest =
      (ComfoControlHeader.make e.sender e.receiver e.opBytes.length
        (e.payloadBytes.length : Int)).toBinary ++
        (e.opBytes ++ (e.payloadBytes ++ rest)) := by
    simp [encodeEnvelope, List.append_assoc]
  have hlen0 : 0 < (encodeEnvelope e ++ rest).length := by
    rw [List.length_append, encodeEnvelope_length]
    omega
  have hhdr : ComfoControlHeader.fromBinary (encodeEnvelope e ++ rest) 0 =
      .ok ⟨padStart32 e.sender, padStart32 e.receiver, e.opBytes.length,
        (e.payloadBytes.length : Int)⟩ := by
    rw [hassoc]
    exact fromBinary_toBinary_append _ _ _ _ _ hs hr hop htot
  have hopb : (⟨padStart32 e.sender, padStart32 e.receiver, e.opBytes.length,
      (e.payloadBytes.length : Int)⟩ : ComfoControlHeader).getOperationBuffer
      (encodeEnvelope e ++ rest) 0 = .ok e.opBytes := by
    rw [hassoc]
    exact getOperationBuffer_frame _ _ _ _ rfl
  have hmsgb : (⟨padStart32 e.sender, padStart32 e.receiver, e.opBytes.length,
      (e.payloadBytes.length : Int)⟩ : ComfoControlHeader).getMessageBuffer
      (encodeEnvelope e ++ rest) 0 = .ok e.payloadBytes := by
    rw [hassoc]
    exact getMessageBuffer_frame _ _ _ _ rfl rfl
  have hadv : readUInt32BE (encodeEnvelope e ++ rest) 0 =
      34 + e.opBytes.length + e.payloadBytes.length := by
    rw [hassoc]
    exact readUInt32BE_toBinary_append _ _ _ _ _ htot
  conv_lhs => rw [fromBinaryLoop.eq_def]
  rw [dif_pos hlen0, hhdr]
  dsimp only
  rw [hopb]
  dsimp only
  rw [hmsgb]
  dsimp only
  rw [hadv,
    show 0 + (34 + e.opBytes.length + e.payloadBytes.length + 4) =
      (encodeEnvelope e).length + 0 by rw [encodeEnvelope_length]; omega,
    fromBinaryLoop_append_left]
  cases fromBinaryLoop rest 0 with
  | error err => rfl
  | ok msgs => rfl

theorem fromBinaryLoop_nil : fromBinaryLoop [] 0 = .ok [] := by
  rw [fromBinaryLoop.eq_def]
  norm_num

theorem fromBinary_concat (envs : List WireEnvelope) (h : ∀ e ∈ envs, e.wf) :
    ComfoControlMessage.fromBinary ((envs.map encodeEnvelope).flatten) =
      .ok (envs.map envMessage) := by
  unfold ComfoControlMessage.fromBinary
  induction envs with
  | nil => simpa using fromBinaryLoop_nil
  | cons e tail ih =>
    simp only [List.map_cons, List.flatten_cons]
    rw [fromBinaryLoop_frame e _ (h e (List.mem_cons_self e tail)),
      ih (fun x hx => h x (List.mem_cons_of_mem e hx))]
    rfl

theorem fromBinary_frameTooShort (data : Buf) (h1 : 0 < data.length)
    (h2 : data.length < 38) :
    ComfoControlMessage.fromBinary data = .error .frameTooShort := by
  unfold ComfoControlMessage.fromBinary
  rw [fromBinaryLoop.eq_def, dif_pos h1]
  have hh : ComfoControlHeader.fromBinary data 0 = .error .frameTooShort := by
    unfold ComfoControlHeader.fromBinary
    rw [if_pos (by simp only [COMFO_MESSAGE_HEADER_LENGTH]; push_cast; omega)]
  rw [hh]

theorem fromBinary_truncatedOperation (s r : List HexDigit) (op msg : Nat) (body : Buf)
    (hs : s.length ≤ 32) (hr : r.length ≤ 32) (hop : op < 65536)
    (htot : 34 + op + msg < 4294967296) (hshort : body.length < op) :
    ComfoControlMessage.fromBinary
      ((ComfoControlHeader.make s r op (msg : Int)).toBinary ++ body) =
      .error .truncatedOperation := by
  have hdlen : ((ComfoControlHeader.make s r op (msg : Int)).toBinary ++ body).length =
      38 + body.length := by
    rw [List.length_append, toBinary_length]
  unfold ComfoControlMessage.fromBinary
  rw [fromBinaryLoop.eq_def, dif_pos (by omega)]
  rw [fromBinary_toBinary_append s r op msg body hs hr hop htot]
  dsimp only
  have hob : (⟨padStart32 s, padStart32 r, op, (msg : Int)⟩ :
      ComfoControlHeader).getOperationBuffer
      ((ComfoControlHeader.make s r op (msg : Int)).toBinary ++ body) 0 =
      .error .truncatedOperation := by
    unfold ComfoControlHeader.getOperationBuffer ComfoControlHeader.opOffset
    rw [if_pos (by
      rw [hdlen]
      simp only [COMFO_MESSAGE_HEADER_LENGTH]
      push_cast
      omega)]
  rw [hob]

theorem fromBinary_truncatedPayload (s r : List HexDigit) (op msg : Nat) (body : Buf)
    (hs : s.length ≤ 32) (hr : r.length ≤ 32) (hop : op < 65536)
    (htot : 34 + op + msg < 4294967296) (hge : op ≤ body.length)
    (hshort : body.length < op + msg) :
    ComfoControlMessage.fromBinary
      ((ComfoControlHeader.make s r op (msg : Int)).toBinary ++ body) =
      .error .truncatedPayload := by
  have hdlen : ((ComfoControlHeader.make s r op (msg : Int)).toBinary ++ body).length =
      38 + body.length := by
    rw [List.length_append, toBinary_length]
  unfold ComfoControlMessage.fromBinary
  rw [fromBinaryLoop.eq_def, dif_pos (by omega)]
  rw [fromBinary_toBinary_append s r op msg body hs hr hop htot]
  dsimp only
  have hob : (⟨padStart32 s, padStart32 r, op, (msg : Int)⟩ :
      ComfoControlHeader).getOperationBuffer
      ((ComfoControlHeader.make s r op (msg : Int)).toBinary ++ body) 0 =
      .ok (jsSubarray ((ComfoControlHeader.make s r op (msg : Int)).toBinary ++ body)
        ((COMFO_MESSAGE_HEADER_LENGTH : Int) + (0 : Nat))
        ((COMFO_MESSAGE_HEADER_LENGTH : Int) + op + (0 : Nat))) := by
    unfold ComfoControlHeader.getOperationBuffer ComfoControlHeader.opOffset
    rw [if_neg (by
      rw [hdlen]
      simp only [COMFO_MESSAGE_HEADER_LENGTH]
      push_cast
      omega)]
  rw [hob]
  dsimp only
  have hmb : (⟨padStart32 s, padStart32 r, op, (msg : Int)⟩ :
      ComfoControlHeader).getMessageBuffer
      ((ComfoControlHeader.make s r op (msg : Int)).toBinary ++ body) 0 =
      .error .truncatedPayload := by
    unfold ComfoControlHeader.getMessageBuffer ComfoControlHeader.messageOffset
    rw [if_pos (by
      rw [hdlen]
      simp only [COMFO_MESSAGE_HEADER_LENGTH]
      push_cast
      omega)]
  rw [hmb]

/-- C3: streaming decode of concatenated envelopes. A buffer that is the
concatenation of n well formed envelopes decodes to exactly their messages in
buffer order, advancing by each total length; a nonempty buffer with fewer
than 38 bytes remaining fails the header check; a declared operation length
exceeding the remaining buffer fails the operation check; a derived message
length exceeding the remaining buffer fails the payload check. -/
theorem C3_streaming_decode :
    (∀ (envs : List WireEnvelope), (∀ e ∈ envs, e.wf) →
      ComfoControlMessage.fromBinary ((envs.map encodeEnvelope).flatten) =
        .ok (envs.map envMessage)) ∧
    (∀ (data : Buf), 0 < data.length → data.length < 38 →
      ComfoControlMessage.fromBinary data = .error .frameTooShort) ∧
    (∀ (s r : List HexDigit) (op msg : Nat) (body : Buf),
      s.length ≤ 32 → r.length ≤ 32 → op < 65536 → 34 + op + msg < 4294967296 →
      body.length < op →
      ComfoControlMessage.fromBinary
        ((ComfoControlHeader.make s r op (msg : Int)).toBinary ++ body) =
        .error .truncatedOperation) ∧
    (∀ (s r : List HexDigit) (op msg : Nat) (body : Buf),
      s.length ≤ 32 → r.length ≤ 32 → op < 65536 → 34 + op + msg < 4294967296 →
      op ≤ body.length → body.length < op + msg →
      ComfoControlMessage.fromBinary
        ((ComfoControlHeader.make s r op (msg : Int)).toBinary ++ body) =
        .error .truncatedPayload) :=
  ⟨fromBinary_concat, fromBinary_frameTooShort, fromBinary_truncatedOperation,
    fromBinary_truncatedPayload⟩

/-- C3 witness: two concrete envelopes concatenate and decode to their two
messages in order, and the three failure cases fire on concrete buffers. -/
theorem C3_streaming_decode_witness :
    (ComfoControlMessage.fromBinary
      ((([⟨[1], [2], [10, 20], [30]⟩, ⟨[3], [4], [5], [6, 7]⟩] :
        List WireEnvelope).map encodeEnvelope).flatten) =
      .ok [⟨[10, 20], [30]⟩, ⟨[5], [6, 7]⟩]) ∧
    (ComfoControlMessage.fromBinary [0] = .error .frameTooShort) ∧
    (ComfoControlMessage.fromBinary
      ((ComfoControlHeader.make [1] [2] 3 ((0 : Nat) : Int)).toBinary ++ [9]) =
      .error .truncatedOperation) ∧
    (ComfoControlMessage.fromBinary
      ((ComfoControlHeader.make [1] [2] 1 ((2 : Nat) : Int)).toBinary ++ [9, 9]) =
      .error .truncatedPayload) := by
  refine ⟨?_, ?_, ?_, ?_⟩
  · exact C3_streaming_decode.1 [⟨[1], [2], [10, 20], [30]⟩, ⟨[3], [4], [5], [6, 7]⟩]
      (by decide)
  · exact C3_streaming_decode.2.1 [0] (by decide) (by decide)
  · exact C3_streaming_decode.2.2.1 [1] [2] 3 0 [9] (by decide) (by decide) (by decide)
      (by decide) (by decide)
  · exact C3_streaming_decode.2.2.2 [1] [2] 1 2 [9, 9] (by decide) (by decide) (by decide)
      (by decide) (by decide) (by decide)

/-! ## ComfoControlTransport.onSocketData (src/unnamed/part_000)

The socket data callback parses the whole chunk with
ComfoControlMessage.fromBinary inside one try block and only then emits one
message event per parsed envelope; a thrown parse error is caught and logged,
and no event is emitted for that chunk. The returned list is the sequence of
message events raised for the chunk. -/
def onSocketData (data : Buf) : List ComfoControlMessage :=
  match ComfoControlMessage.fromBinary data with
  | .ok messages => messages
  | .error _ => []

/-- C8 amended: when the whole chunk parses as a sequence of well formed
envelopes, every envelope raises its message event in order; when parsing of
the chunk fails anywhere, the error is caught and the entire chunk is dropped
without raising any message event, including for well formed envelopes at the
front of the chunk. -/
theorem C8_per_chunk_delivery :
    (∀ (envs : List WireEnvelope), (∀ e ∈ envs, e.wf) →
      onSocketData ((envs.map encodeEnvelope).flatten) = envs.map envMessage) ∧
    (∀ (data : Buf) (err : WireError),
      ComfoControlMessage.fromBinary data = .error err → onSocketData data = []) := by
  constructor
  · intro envs h
    unfold onSocketData
    rw [fromBinary_concat envs h]
  · intro data err h
    unfold onSocketData
    rw [h]

/-- C8 witness: a chunk holding exactly two well formed envelopes raises both
message events, and a chunk that fails to parse raises none. -/
theorem C8_per_chunk_delivery_witness :
    (onSocketData ((([⟨[1], [2], [10, 20], [30]⟩, ⟨[3], [4], [5], [6, 7]⟩] :
      List WireEnvelope).map encodeEnvelope).flatten) =
      [⟨[10, 20], [30]⟩, ⟨[5], [6, 7]⟩]) ∧
    onSocketData [0] = [] := by
  constructor
  · exact C8_per_chunk_delivery.1 [⟨[1], [2], [10, 20], [30]⟩, ⟨[3], [4], [5], [6, 7]⟩]
      (by decide)
  · exact C8_per_chunk_delivery.2 [0] .frameTooShort
      (fromBinary_frameTooShort [0] (by decide) (by decide))

/-- C8 counterexample: a chunk made of one well formed envelope followed by a
single stray byte raises no message event at all, although the envelope alone
parses to its message; the claim that the well formed envelope still raises
its message event fails on this input. -/
theorem C8_per_chunk_delivery_counterexample :
    (ComfoControlMessage.fromBinary (encodeEnvelope ⟨[1], [2], [8, 2], [7]⟩) =
      .ok [⟨[8, 2], [7]⟩]) ∧
    onSocketData (encodeEnvelope ⟨[1], [2], [8, 2], [7]⟩ ++ [0]) = [] := by
  have henv : ComfoControlMessage.fromBinary
      (encodeEnvelope ⟨[1], [2], [8, 2], [7]⟩ ++ [0]) = .error .frameTooShort := by
    unfold ComfoControlMessage.fromBinary
    rw [fromBinaryLoop_frame ⟨[1], [2], [8, 2], [7]⟩ [0] (by decide)]
    have h2 : ComfoControlMessage.fromBinary [0] = .error .frameTooShort :=
      fromBinary_frameTooShort [0] (by decide) (by decide)
    unfold ComfoControlMessage.fromBinary at h2
    rw [h2]
    rfl
  constructor
  · have h1 := fromBinary_concat [⟨[1], [2], [8, 2], [7]⟩] (by decide)
    simpa using h1
  · unfold onSocketData
    rw [henv]

/-! ## Property value codec (src/unnamed/part_002)

JavaScript number semantics used by the serializers: bitwise operators first
convert their operand to a signed 32 bit integer, a right shift is arithmetic
(floor division by a power of two, equal to Euclidean division because the
divisor is positive), and masking with 0xff takes the nonnegative remainder
modulo 256 of the two complement value. -/

/-- ECMAScript ToInt32. -/
def toInt32 (v : Int) : Int := (v + 2147483648) % 4294967296 - 2147483648

/-- JavaScript (x and 0xff) on a number: ToInt32 then the low byte. -/
def jsAnd255 (v : Int) : Nat := ((toInt32 v) % 256).toNat

/-- JavaScript (x >> k): ToInt32 then arithmetic shift right by k, which is
floor division by a power of two; Lean Int division is Euclidean and agrees
with floor division because the divisor is positive. -/
def jsShr (v : Int) (k : Nat) : Int := toInt32 v / 2 ^ k

/-- Coercion applied by Buffer.from to each array element: the value modulo
256. -/
def jsByte (v : Int) : Nat := (v % 256).toNat

/-- Buffer.writeBigInt64LE: the two complement value in eight little endian
bytes. -/
def writeBigInt64LE (v : Int) : Buf :=
  let u := (v % 18446744073709551616).toNat
  [u % 256, u / 256 % 256, u / 65536 % 256, u / 16777216 % 256,
    u / 4294967296 % 256, u / 1099511627776 % 256,
    u / 281474976710656 % 256, u / 72057594037927936 % 256]

/-- Node Buffer.readUInt8 at offset 0. -/
def readUInt8 (data : Buf) : Nat := readByte data 0

/-- Node Buffer.readUInt16LE at offset 0. -/
def readUInt16LE (data : Buf) : Nat := readByte data 0 + 256 * readByte data 1

/-- Node Buffer.readUInt32LE at offset 0. -/
def readUInt32LE (data : Buf) : Nat :=
  readByte data 0 + 256 * readByte data 1 + 65536 * readByte data 2 +
    16777216 * readByte data 3

/-- The unsigned little endian value of the first eight bytes. -/
def readUInt64LE (data : Buf) : Nat :=
  readByte data 0 + 256 * readByte data 1 + 65536 * readByte data 2 +
    16777216 * readByte data 3 + 4294967296 * readByte data 4 +
    1099511627776 * readByte data 5 + 281474976710656 * readByte data 6 +
    72057594037927936 * readByte data 7

/-- Two complement reinterpretation of an unsigned value of the given bit
width, as done by the signed Buffer read functions. -/
def asSigned (w : Nat) (u : Nat) : Int :=
  if u < 2 ^ (w - 1) then (u : Int) else (u : Int) - 2 ^ w

/-! ## UTF-8 (Buffer.from with utf8 / Buffer.toString with utf8)

A JavaScript string that is UTF-8 safe (no lone surrogates) is a sequence of
Unicode scalar values; encoding writes the standard one to four byte forms and
decoding restores them. Invalid byte sequences decode to the replacement
character 65533, matching the lossy Node decoder; only the valid paths are
exercised by the claims. -/

/-- A Unicode scalar value: below 0x110000 and not a surrogate. -/
def isScalar (c : Nat) : Bool := c < 1114112 && !(55296 ≤ c && c < 57344)

/-- UTF-8 encoding of one scalar value. -/
def utf8EncodeChar (c : Nat) : Buf :=
  if c < 128 then [c]
  else if c < 2048 then [192 + c / 64, 128 + c % 64]
  else if c < 65536 then [224 + c / 4096, 128 + c / 64 % 64, 128 + c % 64]
  else [240 + c / 262144, 128 + c / 4096 % 64, 128 + c / 64 % 64, 128 + c % 64]

/-- UTF-8 encoding of a scalar sequence. -/
def utf8Encode (l : List Nat) : Buf := (l.map utf8EncodeChar).flatten

/-- A UTF-8 continuation byte. -/
def isCont (b : Nat) : Bool := 128 ≤ b && b < 192

/-- Validity of the lead and first continuation byte of a three byte form:
no overlong forms below 0xE0 0xA0 and no surrogates 0xED 0xA0 and above. -/
def valid3 (b b1 : Nat) : Bool := (224 < b || 160 ≤ b1) && (b ≠ 237 || b1 < 160)

/-- Validity of the lead and first continuation byte of a four byte form:
no overlong forms below 0xF0 0x90 and nothing above 0x10FFFF. -/
def valid4 (b b1 : Nat) : Bool :=
  (240 < b || 144 ≤ b1) && (b < 244 || (b = 244 && b1 < 144))

/-- One step of lossy UTF-8 decoding: the scalar decoded at a lead byte and
the number of continuation bytes consumed after it. -/
def utf8Step (b : Nat) (rest : Buf) : Nat × Nat :=
  if b < 128 then (b, 0)
  else if b < 194 then (65533, 0)
  else if b < 224 then
    match rest with
    | b1 :: _ =>
      if isCont b1 then ((b - 192) * 64 + (b1 - 128), 1) else (65533, 0)
    | [] => (65533, 0)
  else if b < 240 then
    match rest with
    | b1 :: b2 :: _ =>
      if isCont b1 && isCont b2 && valid3 b b1 then
        ((b - 224) * 4096 + (b1 - 128) * 64 + (b2 - 128), 2)
      else (65533, 0)
    | _ => (65533, 0)
  else
    match rest with
    | b1 :: b2 :: b3 :: _ =>
      if isCont b1 && isCont b2 && isCont b3 && valid4 b b1 then
        ((b - 240) * 262144 + (b1 - 128) * 4096 + (b2 - 128) * 64 + (b3 - 128), 3)
      else (65533, 0)
    | _ => (65533, 0)

/-- Lossy UTF-8 decoding. -/
def utf8Decode : Buf → List Nat
  | [] => []
  | b :: rest =>
    (utf8Step b rest).1 :: utf8Decode (rest.drop (utf8Step b rest).2)
termination_by l => l.length
decreasing_by simp only [List.length_cons, List.length_drop]; omega


theorem utf8Decode_encodeChar (c : Nat) (rest : Buf) (h : isScalar c = true) :
    utf8Decode (utf8EncodeChar c ++ rest) = c :: utf8Decode rest := by
  simp [isScalar] at h
  by_cases h1 : c < 128
  · have he : utf8EncodeChar c = [c] := by
      unfold utf8EncodeChar
      rw [if_pos h1]
    rw [he, List.cons_append, List.nil_append, utf8Decode]
    have hstep : utf8Step c rest = (c, 0) := by
      unfold utf8Step
      rw [if_pos h1]
    rw [hstep]
    simp
  · by_cases h2 : c < 2048
    · have he : utf8EncodeChar c = [192 + c / 64, 128 + c % 64] := by
        unfold utf8EncodeChar
        rw [if_neg h1, if_pos h2]
      rw [he]
      simp only [List.cons_append, List.nil_append]
      have hstep : utf8Step (192 + c / 64) ((128 + c % 64) :: rest) = (c, 1) := by
        unfold utf8Step
        rw [if_neg (by omega), if_neg (by omega), if_pos (by omega)]
        dsimp only
        rw [if_pos (by simp [isCont]; omega)]
        simp only [Prod.mk.injEq, Nat.add_sub_cancel_left, and_true]
        omega
      rw [utf8Decode, hstep]
      simp
    · by_cases h3 : c < 65536
      · have he : utf8EncodeChar c = [224 + c / 4096, 128 + c / 64 % 64, 128 + c % 64] := by
          unfold utf8EncodeChar
          rw [if_neg h1, if_neg h2, if_pos h3]
        rw [he]
        simp only [List.cons_append, List.nil_append]
        have hstep : utf8Step (224 + c / 4096)
            ((128 + c / 64 % 64) :: (128 + c % 64) :: rest) = (c, 2) := by
          unfold utf8Step
          rw [if_neg (by omega), if_neg (by omega), if_neg (by omega), if_pos (by omega)]
          dsimp only
          rw [if_pos (by simp [isCont, valid3]; omega)]
          simp only [Prod.mk.injEq, Nat.add_sub_cancel_left, and_true]
          omega
        rw [utf8Decode, hstep]
        simp
      · have he : utf8EncodeChar c =
            [240 + c / 262144, 128 + c / 4096 % 64, 128 + c / 64 % 64, 128 + c % 64] := by
          unfold utf8EncodeChar
          rw [if_neg h1, if_neg h2, if_neg h3]
        rw [he]
        simp only [List.cons_append, List.nil_append]
        have hstep : utf8Step (240 + c / 262144)
            ((128 + c / 4096 % 64) :: (128 + c / 64 % 64) :: (128 + c % 64) :: rest) =
            (c, 3) := by
          unfold utf8Step
          rw [if_neg (by omega), if_neg (by omega), if_neg (by omega), if_neg (by omega)]
          dsimp only
          rw [if_pos (by simp [isCont, valid4]; omega)]
          simp only [Prod.mk.injEq, Nat.add_sub_cancel_left, and_true]
          omega
        rw [utf8Decode, hstep]
        simp

theorem utf8_roundtrip (l : List Nat) (h : ∀ c ∈ l, isScalar c = true) :
    utf8Decode (utf8Encode l) = l := by
  induction l with
  | nil => rw [utf8Encode, List.map_nil, List.flatten_nil, utf8Decode]
  | cons c tl ih =>
    rw [utf8Encode, List.map_cons, List.flatten_cons]
    rw [show (tl.map utf8EncodeChar).flatten = utf8Encode tl from rfl]
    rw [utf8Decode_encodeChar c _ (h c (List.mem_cons_self c tl)),
      ih (fun x hx => h x (List.mem_cons_of_mem c hx))]

/-- The property data type enum (src/unnamed/part_002). -/
inductive PropertyDataType
  | CN_BOOL
  | CN_UINT8
  | CN_UINT16
  | CN_UINT32
  | CN_INT8
  | CN_INT16
  | CN_INT32
  | CN_INT64
  | CN_STRING
  | CN_TIME
  | CN_VERSION
deriving DecidableEq, Repr

/-- The JavaScript values handled by the property codec: booleans, numbers,
BigInt values (CN_INT64) and strings (as sequences of Unicode scalar
values). -/
inductive PropValue
  | b (v : Bool)
  | n (v : Int)
  | big (v : Int)
  | s (v : List Nat)
deriving DecidableEq, Repr

/-- PropertyDataTypeSerializers. The shape mismatch fallback returns an empty
buffer; it is unreachable under the TypeScript types and excluded by inRange
in every claim. -/
def serializePropertyValue (t : PropertyDataType) (v : PropValue) : Buf :=
  match t, v with
  | .CN_BOOL, .b x => [if x then 1 else 0]
  | .CN_UINT8, .n x => [jsByte x]
  | .CN_UINT16, .n x => [jsAnd255 x, jsAnd255 (jsShr x 8)]
  | .CN_UINT32, .n x =>
    [jsAnd255 x, jsAnd255 (jsShr x 8), jsAnd255 (jsShr x 16), jsAnd255 (jsShr x 24)]
  | .CN_INT8, .n x => [jsByte x]
  | .CN_INT16, .n x => [jsAnd255 x, jsAnd255 (jsShr x 8)]
  | .CN_INT32, .n x =>
    [jsAnd255 x, jsAnd255 (jsShr x 8), jsAnd255 (jsShr x 16), jsAnd255 (jsShr x 24)]
  | .CN_INT64, .big x => writeBigInt64LE x
  | .CN_STRING, .s l => utf8Encode l
  | .CN_TIME, .n x =>
    [jsAnd255 x, jsAnd255 (jsShr x 8), jsAnd255 (jsShr x 16), jsAnd255 (jsShr x 24)]
  | .CN_VERSION, .s l => utf8Encode l
  | _, _ => []

/-- PropertyDataTypeParsers. -/
def deserializePropertyValue (t : PropertyDataType) (data : Buf) : PropValue :=
  match t with
  | .CN_BOOL => .b (readUInt8 data == 1)
  | .CN_UINT8 => .n (readUInt8 data)
  | .CN_UINT16 => .n (readUInt16LE data)
  | .CN_UINT32 => .n (readUInt32LE data)
  | .CN_INT8 => .n (asSigned 8 (readUInt8 data))
  | .CN_INT16 => .n (asSigned 16 (readUInt16LE data))
  | .CN_INT32 => .n (asSigned 32 (readUInt32LE data))
  | .CN_INT64 => .big (asSigned 64 (readUInt64LE data))
  | .CN_STRING => .s (utf8Decode data)
  | .CN_TIME => .n (readUInt32LE data)
  | .CN_VERSION => .s (utf8Decode data)

/-- The in range values of each data type: the numeric range of the wire
representation, matching value shape, and UTF-8 safety for strings. -/
def inRange (t : PropertyDataType) (v : PropValue) : Bool :=
  match t, v with
  | .CN_BOOL, .b _ => true
  | .CN_UINT8, .n x => decide (0 ≤ x ∧ x < 256)
  | .CN_UINT16, .n x => decide (0 ≤ x ∧ x < 65536)
  | .CN_UINT32, .n x => decide (0 ≤ x ∧ x < 4294967296)
  | .CN_INT8, .n x => decide (-128 ≤ x ∧ x < 128)
  | .CN_INT16, .n x => decide (-32768 ≤ x ∧ x < 32768)
  | .CN_INT32, .n x => decide (-2147483648 ≤ x ∧ x < 2147483648)
  | .CN_INT64, .big x => decide (-9223372036854775808 ≤ x ∧ x < 9223372036854775808)
  | .CN_STRING, .s l => l.all isScalar
  | .CN_TIME, .n x => decide (0 ≤ x ∧ x < 4294967296)
  | .CN_VERSION, .s l => l.all isScalar
  | _, _ => false

theorem toInt32_small (v : Int) (h0 : -2147483648 ≤ v) (h1 : v < 2147483648) :
    toInt32 v = v := by
  unfold toInt32
  omega

set_option maxHeartbeats 2000000 in
theorem propRoundtrip (t : PropertyDataType) (v : PropValue)
    (h : inRange t v = true) :
    deserializePropertyValue t (serializePropertyValue t v) = v := by
  cases t <;> cases v <;>
    simp only [inRange, decide_eq_true_eq, List.all_eq_true, Bool.false_eq_true] at h
  case CN_BOOL.b x => cases x <;> rfl
  case CN_UINT8.n x =>
    simp only [serializePropertyValue, deserializePropertyValue, readUInt8, readByte,
      List.getD_cons_zero, jsByte, PropValue.n.injEq]
    omega
  case CN_UINT16.n x =>
    simp only [serializePropertyValue, deserializePropertyValue, readUInt16LE, readByte,
      List.getD_cons_zero, List.getD_cons_succ, jsAnd255, jsShr]
    norm_num
    rw [toInt32_small x (by omega) (by omega), toInt32_small (x / 256) (by omega) (by omega)]
    try simp only [PropValue.n.injEq]
    omega
  case CN_UINT32.n x =>
    simp only [serializePropertyValue, deserializePropertyValue, readUInt32LE, readByte,
      List.getD_cons_zero, List.getD_cons_succ, jsAnd255, jsShr]
    norm_num
    have hy1 : toInt32 x = x ∨ toInt32 x = x - 4294967296 := by unfold toInt32; omega
    have hy2 : -2147483648 ≤ toInt32 x ∧ toInt32 x < 2147483648 := by unfold toInt32; omega
    generalize hgy : toInt32 x = y at hy1 hy2 ⊢
    rw [toInt32_small (y / 256) (by omega) (by omega),
      toInt32_small (y / 65536) (by omega) (by omega),
      toInt32_small (y / 16777216) (by omega) (by omega)]
    try simp only [PropValue.n.injEq]
    omega
  case CN_INT8.n x =>
    simp only [serializePropertyValue, deserializePropertyValue, readUInt8, readByte,
      List.getD_cons_zero, jsByte, asSigned]
    norm_num
    split <;> omega
  case CN_INT16.n x =>
    simp only [serializePropertyValue, deserializePropertyValue, readUInt16LE, readByte,
      List.getD_cons_zero, List.getD_cons_succ, jsAnd255, jsShr, asSigned]
    norm_num
    rw [toInt32_small x (by omega) (by omega), toInt32_small (x / 256) (by omega) (by omega)]
    split <;> omega
  case CN_INT32.n x =>
    simp only [serializePropertyValue, deserializePropertyValue, readUInt32LE, readByte,
      List.getD_cons_zero, List.getD_cons_succ, jsAnd255, jsShr, asSigned]
    norm_num
    have hy1 : toInt32 x = x ∨ toInt32 x = x + 4294967296 := by unfold toInt32; omega
    have hy2 : -2147483648 ≤ toInt32 x ∧ toInt32 x < 2147483648 := by unfold toInt32; omega
    generalize hgy : toInt32 x = y at hy1 hy2 ⊢
    rw [toInt32_small (y / 256) (by omega) (by omega),
      toInt32_small (y / 65536) (by omega) (by omega),
      toInt32_small (y / 16777216) (by omega) (by omega)]
    split <;> omega
  case CN_INT64.big x =>
    simp only [serializePropertyValue, deserializePropertyValue, writeBigInt64LE,
      readUInt64LE, readByte, List.getD_cons_zero, List.getD_cons_succ,
      PropValue.big.injEq]
    have hN : (0 : Int) ≤ x % 18446744073709551616 := by omega
    generalize hU : (x % 18446744073709551616).toNat = U
    have hUx : (U : Int) = x % 18446744073709551616 := by
      rw [← hU]
      exact Int.toNat_of_nonneg hN
    simp only [asSigned]
    rw [show (2 : Nat) ^ (64 - 1) = 9223372036854775808 by norm_num,
      show (2 : Int) ^ 64 = 18446744073709551616 by norm_num]
    split <;> omega
  case CN_STRING.s l =>
    simp only [serializePropertyValue, deserializePropertyValue, PropValue.s.injEq]
    exact utf8_roundtrip l h
  case CN_TIME.n x =>
    simp only [serializePropertyValue, deserializePropertyValue, readUInt32LE, readByte,
      List.getD_cons_zero, List.getD_cons_succ, jsAnd255, jsShr]
    norm_num
    have hy1 : toInt32 x = x ∨ toInt32 x = x - 4294967296 := by unfold toInt32; omega
    have hy2 : -2147483648 ≤ toInt32 x ∧ toInt32 x < 2147483648 := by unfold toInt32; omega
    generalize hgy : toInt32 x = y at hy1 hy2 ⊢
    rw [toInt32_small (y / 256) (by omega) (by omega),
      toInt32_small (y / 65536) (by omega) (by omega),
      toInt32_small (y / 16777216) (by omega) (by omega)]
    try simp only [PropValue.n.injEq]
    omega
  case CN_VERSION.s l =>
    simp only [serializePropertyValue, deserializePropertyValue, PropValue.s.injEq]
    exact utf8_roundtrip l h

theorem serialize_uint32_le (v : Nat) (hv : v < 4294967296) :
    serializePropertyValue .CN_UINT32 (.n v) =
      [v % 256, v / 256 % 256, v / 65536 % 256, v / 16777216 % 256] := by
  simp only [serializePropertyValue, jsAnd255, jsShr]
  try norm_num
  have hy1 : toInt32 v = v ∨ toInt32 v = (v : Int) - 4294967296 := by
    unfold toInt32
    omega
  have hy2 : -2147483648 ≤ toInt32 v ∧ toInt32 v < 2147483648 := by
    unfold toInt32
    omega
  generalize hgy : toInt32 (v : Int) = y at hy1 hy2 ⊢
  rw [toInt32_small (y / 256) (by omega) (by omega),
    toInt32_small (y / 65536) (by omega) (by omega),
    toInt32_small (y / 16777216) (by omega) (by omega)]
  try simp only [List.cons.injEq, and_true]
  omega

theorem deserialize_uint16_le (b0 b1 : Nat) :
    deserializePropertyValue .CN_UINT16 [b0, b1] = .n ((b0 : Int) + 256 * b1) := by
  simp only [deserializePropertyValue, readUInt16LE, readByte, List.getD_cons_zero,
    List.getD_cons_succ, PropValue.n.injEq]
  push_cast
  ring

/-- C2: property value codec round trip. For every supported data type and
every in range value, deserializing the serialization restores the value,
where strings (CN_STRING and CN_VERSION) are guaranteed only for UTF-8 safe
contents; multi byte integers are laid out little endian, and the codec applies
no unit conversion: serialization of a u32 value is exactly its little endian
bytes and deserialization of a u16 buffer is exactly its little endian value. -/
theorem C2_property_value_codec :
    (∀ (t : PropertyDataType) (v : PropValue), inRange t v = true →
      deserializePropertyValue t (serializePropertyValue t v) = v) ∧
    (∀ v : Nat, v < 4294967296 →
      serializePropertyValue .CN_UINT32 (.n v) =
        [v % 256, v / 256 % 256, v / 65536 % 256, v / 16777216 % 256]) ∧
    (∀ b0 b1 : Nat,
      deserializePropertyValue .CN_UINT16 [b0, b1] = .n ((b0 : Int) + 256 * b1)) :=
  ⟨propRoundtrip, serialize_uint32_le, deserialize_uint16_le⟩

/-- C2 witness: concrete round trips for a signed 16 bit value and a UTF-8
string with one, two and four byte characters, the little endian layout of the
value 305419896 (hex 12345678), and the unscaled decode of the buffer
hex 3412 to 4660. -/
theorem C2_property_value_codec_witness :
    (deserializePropertyValue .CN_INT16
      (serializePropertyValue .CN_INT16 (.n (-2))) = .n (-2)) ∧
    (deserializePropertyValue .CN_STRING
      (serializePropertyValue .CN_STRING (.s [104, 955, 128512])) =
        .s [104, 955, 128512]) ∧
    (serializePropertyValue .CN_UINT32 (.n ((305419896 : Nat) : Int)) = [120, 86, 52, 18]) ∧
    (deserializePropertyValue .CN_UINT16 [52, 18] = .n 4660) := by
  refine ⟨C2_property_value_codec.1 _ _ (by decide),
    C2_property_value_codec.1 _ _ (by decide), ?_, ?_⟩
  · rw [C2_property_value_codec.2.1 305419896 (by decide)]
  · rw [C2_property_value_codec.2.2 52 18]
    try decide

/-! ## Client model (src/src/comfoControlClient.ts)

The asynchronous client logic becomes explicit state transition functions:
a send registers a pending reply keyed by the transport assigned id, the
inbound dispatch resolves a pending reply or invokes a notification handler,
and the deferred promise plus timeout combinator of util/deferredPromise.ts
become a small event machine over the pending table and the caller outcome. -/

/-- Modelled from the spec: the opcode enum of the missing protocol module
src/protocol/comfoConnect.ts; only the constructors named by the client code
are included. -/
inductive Opcode
  | NO_OPERATION
  | REGISTER_DEVICE_REQUEST
  | REGISTER_DEVICE_CONFIRM
  | START_SESSION_REQUEST
  | START_SESSION_CONFIRM
  | CLOSE_SESSION_REQUEST
  | KEEP_ALIVE
  | CN_TIME_REQUEST
  | CN_TIME_CONFIRM
  | CN_RPDO_REQUEST
  | CN_RPDO_CONFIRM
  | CN_RPDO_NOTIFICATION
  | CN_NODE_NOTIFICATION
  | GATEWAY_NOTIFICATION
  | CN_ALARM_NOTIFICATION
  | CN_RMI_REQUEST
  | CN_RMI_CONFIRM
deriving DecidableEq, Repr

/-- Modelled from the spec: the result enum of the missing protocol module;
OK plus a representative error code. -/
inductive Result
  | OK
  | NOT_ALLOWED
deriving DecidableEq, Repr

/-- The observable fields of an inbound ComfoControlMessage used by the
client: opcode, correlation id and result code (the resultCode getter already
defaults a missing result to OK). -/
structure CMsg where
  opcode : Opcode
  id : Nat
  result : Result
deriving DecidableEq, Repr

/-- Modelled from the spec: the requestMessages table of the missing
opcodes.ts module, mapping each request opcode to its paired confirm opcode;
requests with no confirm map to the NO_OPERATION sentinel, opcodes that are
not requests are absent. -/
def requestMessages : Opcode → Option Opcode
  | .REGISTER_DEVICE_REQUEST => some .REGISTER_DEVICE_CONFIRM
  | .START_SESSION_REQUEST => some .START_SESSION_CONFIRM
  | .CN_TIME_REQUEST => some .CN_TIME_CONFIRM
  | .CN_RPDO_REQUEST => some .CN_RPDO_CONFIRM
  | .CN_RMI_REQUEST => some .CN_RMI_CONFIRM
  | .KEEP_ALIVE => some .NO_OPERATION
  | .CLOSE_SESSION_REQUEST => some .NO_OPERATION
  | _ => none

/-- The guard in ComfoControlClient.send: a PendingRequest is registered
exactly when the response opcode is present and not the NO_OPERATION
sentinel. -/
def sendRegistersPending (opcode : Opcode) : Bool :=
  match requestMessages opcode with
  | none => false
  | some .NO_OPERATION => false
  | some _ => true

/-- The continuation attached by send to the pending reply: a response with
the wrong opcode becomes an unexpected response opcode error, otherwise the
response is returned. -/
def sendResponseContinuation (responseOpcode : Opcode) (response : CMsg) :
    Except String CMsg :=
  if response.opcode ≠ responseOpcode then
    .error "Unexpected response opcode"
  else
    .ok response

/-- The outcome of ComfoControlClient.processMessage for one inbound
message. -/
inductive Dispatch
  | resolvePending (id : Nat) (m : CMsg)
  | invokeHandler (o : Opcode) (m : CMsg)
  | ignore
deriving DecidableEq, Repr

/-- ComfoControlClient.processMessage: a live pending reply with the message
id wins over every notification handler; otherwise a registered handler for
the opcode is invoked; otherwise the message is dropped. -/
def processMessageDispatch (pendingIds : List Nat) (handlerOpcodes : List Opcode)
    (m : CMsg) : Dispatch :=
  if pendingIds.contains m.id then .resolvePending m.id m
  else if handlerOpcodes.contains m.opcode then .invokeHandler m.opcode m
  else .ignore

/-- The caller visible outcome of one tracked send. -/
inductive SendOutcome
  | confirmed (m : CMsg)
  | unexpectedOpcode (o : Opcode)
  | timedOut
deriving DecidableEq, Repr

/-- The pending reply bookkeeping for one tracked request: the ids with a
live DeferredPromise in pendingReplies, and the settled result of the race
built by the timeout helper for the tracked request (none while racing). -/
structure PendingState where
  table : List Nat
  outcome : Option SendOutcome
deriving DecidableEq, Repr

/-- The events that can settle a tracked request: an inbound message
processed by processMessage, or the firing of the request timeout timer. -/
inductive ClientEv
  | inbound (m : CMsg)
  | requestTimeoutFires
deriving DecidableEq, Repr

/-- One step of the send lifecycle for the tracked request reqId whose
expected confirm opcode is expected. An inbound message with a live pending
id resolves that DeferredPromise, whose finally callback deletes the
pendingReplies entry and whose then continuation settles the race unless the
race has already settled. The timeout helper rejects only the race promise:
the DeferredPromise in the table is not settled by it, so its finally
callback does not run and the table keeps the entry. -/
def sendLifecycleStep (reqId : Nat) (expected : Opcode) (st : PendingState)
    (e : ClientEv) : PendingState :=
  match e with
  | .requestTimeoutFires =>
    if st.outcome.isSome then st else { st with outcome := some .timedOut }
  | .inbound m =>
    if st.table.contains m.id then
      { table := st.table.filter (fun i => i ≠ m.id),
        outcome :=
          if m.id = reqId then
            match st.outcome with
            | some o => some o
            | none =>
              some (if m.opcode = expected then .confirmed m
                else .unexpectedOpcode m.opcode)
          else st.outcome }
    else st

/-- The per request timeout: this.options.requestTimeout with default
15000 ms. -/
def requestTimeoutMs (options : Option Nat) : Nat := options.getD 15000

/-- C4: request and response correlation. START_SESSION_REQUEST maps to the
non void confirm START_SESSION_CONFIRM and therefore registers a pending
reply; an inbound message whose id has a live pending reply is dispatched to
that pending reply regardless of which notification handlers exist; for the
tracked request, a matching id with the expected confirm opcode settles the
caller with the confirm, and a matching id with a different opcode settles
the caller with the unexpected opcode rejection. -/
theorem C4_request_response_correlation :
    (requestMessages .START_SESSION_REQUEST = some .START_SESSION_CONFIRM ∧
      sendRegistersPending .START_SESSION_REQUEST = true) ∧
    (∀ (pendingIds : List Nat) (handlerOpcodes : List Opcode) (m : CMsg),
      pendingIds.contains m.id = true →
      processMessageDispatch pendingIds handlerOpcodes m = .resolvePending m.id m) ∧
    (∀ (reqId : Nat) (st : PendingState) (m : CMsg),
      st.table.contains reqId = true → st.outcome = none → m.id = reqId →
      m.opcode = .START_SESSION_CONFIRM →
      (sendLifecycleStep reqId .START_SESSION_CONFIRM st (.inbound m)).outcome =
        some (.confirmed m)) ∧
    (∀ (reqId : Nat) (st : PendingState) (m : CMsg),
      st.table.contains reqId = true → st.outcome = none → m.id = reqId →
      m.opcode ≠ .START_SESSION_CONFIRM →
      (sendLifecycleStep reqId .START_SESSION_CONFIRM st (.inbound m)).outcome =
        some (.unexpectedOpcode m.opcode)) := by
  refine ⟨⟨rfl, rfl⟩, ?_, ?_, ?_⟩
  · intro pendingIds handlerOpcodes m hmem
    unfold processMessageDispatch
    rw [if_pos hmem]
  · intro reqId st m hmem hout hid hop
    have hmem2 : reqId ∈ st.table := by simpa using hmem
    simp [sendLifecycleStep, hid, hmem2, hout, hop]
  · intro reqId st m hmem hout hid hop
    have hmem2 : reqId ∈ st.table := by simpa using hmem
    simp [sendLifecycleStep, hid, hmem2, hout, hop]

/-- C4 witness: a pending request with id 7 expecting START_SESSION_CONFIRM
is resolved by a matching confirm, rejected as unexpected by a KEEP_ALIVE
under the same id, and the dispatch prefers the pending entry over a
registered handler for the same opcode. -/
theorem C4_request_response_correlation_witness :
    (processMessageDispatch [7] [Opcode.CN_RPDO_NOTIFICATION]
      ⟨.CN_RPDO_NOTIFICATION, 7, .OK⟩ =
      .resolvePending 7 ⟨.CN_RPDO_NOTIFICATION, 7, .OK⟩) ∧
    ((sendLifecycleStep 7 .START_SESSION_CONFIRM ⟨[7], none⟩
      (.inbound ⟨.START_SESSION_CONFIRM, 7, .OK⟩)).outcome =
      some (.confirmed ⟨.START_SESSION_CONFIRM, 7, .OK⟩)) ∧
    ((sendLifecycleStep 7 .START_SESSION_CONFIRM ⟨[7], none⟩
      (.inbound ⟨.KEEP_ALIVE, 7, .OK⟩)).outcome =
      some (.unexpectedOpcode .KEEP_ALIVE)) :=
  ⟨C4_request_response_correlation.2.1 [7] [Opcode.CN_RPDO_NOTIFICATION]
      ⟨.CN_RPDO_NOTIFICATION, 7, .OK⟩ (by decide),
    C4_request_response_correlation.2.2.1 7 ⟨[7], none⟩
      ⟨.START_SESSION_CONFIRM, 7, .OK⟩ (by decide) rfl rfl rfl,
    C4_request_response_correlation.2.2.2 7 ⟨[7], none⟩
      ⟨.KEEP_ALIVE, 7, .OK⟩ (by decide) rfl rfl (by decide)⟩

/-- C5 counterexample: when the request timeout fires for the tracked request
id 7, the caller outcome becomes the timeout rejection but the pending
replies table still contains the entry for id 7: the deletion callback is
attached to the DeferredPromise by finally, and the timeout helper rejects
only the raced promise without settling the DeferredPromise, so the entry is
not removed upon the timeout rejection as the claim states. -/
theorem C5_request_timeout_counterexample :
    ((sendLifecycleStep 7 .START_SESSION_CONFIRM ⟨[7], none⟩
        .requestTimeoutFires).outcome = some .timedOut) ∧
    ((sendLifecycleStep 7 .START_SESSION_CONFIRM ⟨[7], none⟩
        .requestTimeoutFires).table.contains 7 = true) := by
  decide

/-- C5 amended: the default request timeout is 15000 ms; when the timeout
fires before any confirm, the caller future settles with the timeout
rejection while the pending replies table is left unchanged, the entry
included; the entry is removed only when a reply with that id later arrives,
which settles the DeferredPromise and runs the deletion callback without
changing the already settled caller outcome. -/
theorem C5_request_timeout :
    (requestTimeoutMs none = 15000) ∧
    (∀ (reqId : Nat) (expected : Opcode) (st : PendingState),
      st.table.contains reqId = true → st.outcome = none →
      ((sendLifecycleStep reqId expected st .requestTimeoutFires).outcome =
          some .timedOut ∧
        (sendLifecycleStep reqId expected st .requestTimeoutFires).table = st.table)) ∧
    (∀ (reqId : Nat) (expected : Opcode) (st : PendingState) (m : CMsg),
      st.outcome = some .timedOut → m.id = reqId → st.table = [reqId] →
      ((sendLifecycleStep reqId expected st (.inbound m)).table.contains reqId =
          false ∧
        (sendLifecycleStep reqId expected st (.inbound m)).outcome =
          some .timedOut)) := by
  refine ⟨rfl, ?_, ?_⟩
  · intro reqId expected st hmem hout
    simp [sendLifecycleStep, hout]
  · intro reqId expected st m hout hid htable
    simp [sendLifecycleStep, hid, hout, htable]

/-- C5 witness: the amended behavior at the concrete tracked request id 7:
the timeout settles the caller and keeps the table entry; a late reply for
id 7 then removes the entry while the outcome stays the timeout rejection. -/
theorem C5_request_timeout_witness :
    (requestTimeoutMs none = 15000) ∧
    ((sendLifecycleStep 7 .START_SESSION_CONFIRM ⟨[7], none⟩
        .requestTimeoutFires).outcome = some .timedOut ∧
      (sendLifecycleStep 7 .START_SESSION_CONFIRM ⟨[7], none⟩
        .requestTimeoutFires).table = [7]) ∧
    ((sendLifecycleStep 7 .START_SESSION_CONFIRM ⟨[7], some .timedOut⟩
        (.inbound ⟨.START_SESSION_CONFIRM, 7, .OK⟩)).table.contains 7 = false ∧
      (sendLifecycleStep 7 .START_SESSION_CONFIRM ⟨[7], some .timedOut⟩
        (.inbound ⟨.START_SESSION_CONFIRM, 7, .OK⟩)).outcome = some .timedOut) :=
  ⟨C5_request_timeout.1,
    C5_request_timeout.2.1 7 .START_SESSION_CONFIRM ⟨[7], none⟩ (by decide) rfl,
    C5_request_timeout.2.2 7 .START_SESSION_CONFIRM ⟨[7], some .timedOut⟩
      ⟨.START_SESSION_CONFIRM, 7, .OK⟩ rfl rfl rfl⟩

/-- The session state enum of the client. -/
inductive SessionState
  | None
  | Registering
  | Active
deriving DecidableEq, Repr

/-- The failures of startSession: the guard error, the two result code
errors (the source interpolates the result name into the message), and
propagated transport errors. -/
inductive SessionError
  | alreadyActive
  | registerFailed (r : Result)
  | startSessionFailed (r : Result)
  | transportError (e : String)
deriving DecidableEq, Repr

/-- ComfoControlClient.startSession. The two awaited exchanges are passed in
as their outcomes: a transport failure of either send is an error value, and
a received confirm carries its result code. The assignment to Registering,
the try block and the catch that resets the state to None collapse into the
returned state. The fire and forget resubscription loop after the Active
assignment does not change the session state and is not part of this
function. -/
def startSessionFlow (state : SessionState)
    (registerResponse sessionResponse : Except String CMsg) :
    SessionState × Except SessionError Unit :=
  if state ≠ SessionState.None then
    (state, .error .alreadyActive)
  else
    match registerResponse with
    | .error e => (SessionState.None, .error (.transportError e))
    | .ok reg =>
      if reg.result ≠ Result.OK then
        (SessionState.None, .error (.registerFailed reg.result))
      else
        match sessionResponse with
        | .error e => (SessionState.None, .error (.transportError e))
        | .ok sess =>
          if sess.result ≠ Result.OK then
            (SessionState.None, .error (.startSessionFailed sess.result))
          else
            (SessionState.Active, .ok ())

/-- C6: startSession atomicity. A call in a state other than None fails
immediately with the guard error and leaves the state unchanged; from None,
every failing run (transport error or non OK result in either exchange) ends
with state None and an error, every successful run ends Active, and no run
from None ever ends in Registering. -/
theorem C6_startSession_atomicity :
    (∀ (st : SessionState) (reg sess : Except String CMsg), st ≠ SessionState.None →
      startSessionFlow st reg sess = (st, .error .alreadyActive)) ∧
    (∀ (reg sess : Except String CMsg) (e : SessionError),
      (startSessionFlow SessionState.None reg sess).2 = .error e →
      (startSessionFlow SessionState.None reg sess).1 = SessionState.None) ∧
    (∀ (reg sess : Except String CMsg),
      (startSessionFlow SessionState.None reg sess).2 = .ok () →
      (startSessionFlow SessionState.None reg sess).1 = SessionState.Active) ∧
    (∀ (reg sess : Except String CMsg),
      (startSessionFlow SessionState.None reg sess).1 ≠ SessionState.Registering) := by
  have hshape : ∀ (reg sess : Except String CMsg),
      (startSessionFlow SessionState.None reg sess).1 = SessionState.None ∧
        (∃ e, (startSessionFlow SessionState.None reg sess).2 = .error e) ∨
      startSessionFlow SessionState.None reg sess = (SessionState.Active, .ok ()) := by
    intro reg sess
    unfold startSessionFlow
    rw [if_neg (by simp)]
    cases reg with
    | error e => exact Or.inl ⟨rfl, ⟨.transportError e, rfl⟩⟩
    | ok r =>
      dsimp only
      by_cases hr : r.result = Result.OK
      · rw [if_neg (by simp [hr])]
        cases sess with
        | error e => exact Or.inl ⟨rfl, ⟨.transportError e, rfl⟩⟩
        | ok s =>
          dsimp only
          by_cases hs : s.result = Result.OK
          · rw [if_neg (by simp [hs])]
            exact Or.inr rfl
          · rw [if_pos hs]
            exact Or.inl ⟨rfl, ⟨.startSessionFailed s.result, rfl⟩⟩
      · rw [if_pos hr]
        exact Or.inl ⟨rfl, ⟨.registerFailed r.result, rfl⟩⟩
  refine ⟨?_, ?_, ?_, ?_⟩
  · intro st reg sess hst
    unfold startSessionFlow
    rw [if_pos hst]
  · intro reg sess e he
    rcases hshape reg sess with ⟨h1, _⟩ | h2
    · exact h1
    · rw [h2] at he
      exact absurd he (by simp)
  · intro reg sess hok
    rcases hshape reg sess with ⟨_, ⟨e, he⟩⟩ | h2
    · rw [he] at hok
      exact absurd hok (by simp)
    · rw [h2]
  · intro reg sess
    rcases hshape reg sess with ⟨h1, _⟩ | h2
    · rw [h1]
      simp
    · rw [h2]
      simp

/-- C6 witness: the guard fires in the Active state; a NOT_ALLOWED register
result reverts to None with the register error; two OK confirms end Active;
and the register failure run does not end in Registering. -/
theorem C6_startSession_atomicity_witness :
    (startSessionFlow SessionState.Active (.ok ⟨.REGISTER_DEVICE_CONFIRM, 1, .OK⟩)
      (.ok ⟨.START_SESSION_CONFIRM, 2, .OK⟩) =
      (SessionState.Active, .error .alreadyActive)) ∧
    ((startSessionFlow SessionState.None
      (.ok ⟨.REGISTER_DEVICE_CONFIRM, 1, .NOT_ALLOWED⟩)
      (.ok ⟨.START_SESSION_CONFIRM, 2, .OK⟩)).1 = SessionState.None) ∧
    ((startSessionFlow SessionState.None (.ok ⟨.REGISTER_DEVICE_CONFIRM, 1, .OK⟩)
      (.ok ⟨.START_SESSION_CONFIRM, 2, .OK⟩)).1 = SessionState.Active) ∧
    ((startSessionFlow SessionState.None
      (.ok ⟨.REGISTER_DEVICE_CONFIRM, 1, .NOT_ALLOWED⟩)
      (.ok ⟨.START_SESSION_CONFIRM, 2, .OK⟩)).1 ≠ SessionState.Registering) :=
  ⟨C6_startSession_atomicity.1 SessionState.Active _ _ (by decide),
    C6_startSession_atomicity.2.1 _ _ (.registerFailed .NOT_ALLOWED) rfl,
    C6_startSession_atomicity.2.2.1 _ _ rfl,
    C6_startSession_atomicity.2.2.2 _ _⟩

/-! ## Property update dispatch (onPropertyUpdateNotification) -/

/-- A registered property listener, identified by reference; its behavior is
whether the invocation throws. -/
structure PropListener where
  tag : Nat
  throws : Bool
deriving DecidableEq, Repr

/-- The update record passed to every listener. -/
structure PropertyUpdatePayload where
  propertyId : Nat
  propertyName : String
  dataType : PropertyDataType
  value : PropValue
  raw : Buf
deriving DecidableEq, Repr

/-- One entry of the deviceProperties table: the spread device property (id,
data type, optional convert hook with possibly nullish result), the resolved
name, the listeners and the registered flag. The field name listners follows
the source spelling. -/
structure DevicePropertyInfo where
  propertyId : Nat
  dataType : PropertyDataType
  convert : Option (PropValue → Option PropValue)
  propertyName : String
  listners : List PropListener
  registered : Bool

/-- The record constructed in the dispatch loop: value is the decoded raw
buffer passed through the optional convert hook, falling back to the decoded
value when the hook is absent or returns a nullish result. -/
def propertyUpdatePayload (info : DevicePropertyInfo) (raw : Buf) :
    PropertyUpdatePayload :=
  let value := deserializePropertyValue info.dataType raw
  { propertyId := info.propertyId
    propertyName := info.propertyName
    dataType := info.dataType
    value :=
      match info.convert with
      | some f => (f value).getD value
      | none => value
    raw := raw }

/-- The for loop over info.listners: each listener is invoked with the
payload; an exception aborts the loop (there is no per listener catch), and
the flag records whether the loop ended in an exception. The result lists
the invocations that happened, in order. -/
def runListeners : List PropListener → PropertyUpdatePayload →
    List (Nat × PropertyUpdatePayload) × Bool
  | [], _ => ([], false)
  | l :: rest, p =>
    if l.throws then ([(l.tag, p)], true)
    else
      let r := runListeners rest p
      ((l.tag, p) :: r.1, r.2)

/-- ComfoControlClient.onPropertyUpdateNotification: look up the pdid in the
deviceProperties table; an unknown property is logged and ignored; otherwise
run every listener of the entry with the update record. -/
def onPropertyUpdateNotification (deviceProperties : List (Nat × DevicePropertyInfo))
    (pdid : Nat) (data : Buf) : List (Nat × PropertyUpdatePayload) × Bool :=
  match deviceProperties.lookup pdid with
  | none => ([], false)
  | some info => runListeners info.listners (propertyUpdatePayload info data)

theorem runListeners_characterization (ls : List PropListener)
    (p : PropertyUpdatePayload) :
    runListeners ls p =
      ((ls.takeWhile (fun l => !l.throws) ++
        (ls.dropWhile (fun l => !l.throws)).take 1).map (fun l => (l.tag, p)),
        ls.any (fun l => l.throws)) := by
  induction ls with
  | nil => rfl
  | cons l rest ih =>
    by_cases hl : l.throws
    · simp [runListeners, List.takeWhile_cons, List.dropWhile_cons, hl]
    · simp only [runListeners, if_neg hl, ih]
      simp [List.takeWhile_cons, List.dropWhile_cons, hl]

/-- C7 counterexample: a subscription for property 212 with two listeners
where the first throws: only the first listener is invoked in the dispatch,
so an exception in one listener does prevent the remaining listeners from
being invoked, contrary to the claim. -/
theorem C7_listener_isolation_counterexample :
    ((onPropertyUpdateNotification
      [(212, ⟨212, .CN_UINT16, none, "TEMPERATURE_PROFILE_TARGET",
        [⟨0, true⟩, ⟨1, false⟩], true⟩)] 212 [238, 0]).1.map Prod.fst = [0]) ∧
    (([⟨0, true⟩, ⟨1, false⟩] : List PropListener).map PropListener.tag = [0, 1]) ∧
    (([0] : List Nat) ≠ [0, 1]) := by
  refine ⟨rfl, rfl, by decide⟩

/-- C7 amended: the dispatch looks up the subscription and invokes its
listeners in order with the update record (propertyId, propertyName,
dataType, decoded value after the optional convert hook, raw buffer); when no
listener throws, every listener is invoked; an exception from a listener ends
the dispatch after that listener, the remaining listeners are not invoked,
and the exception is reported to processMessage (where it is caught and
logged) instead of crashing the transport. -/
theorem C7_listener_isolation :
    (∀ (table : List (Nat × DevicePropertyInfo)) (pdid : Nat)
      (info : DevicePropertyInfo) (data : Buf), table.lookup pdid = some info →
      onPropertyUpdateNotification table pdid data =
        runListeners info.listners (propertyUpdatePayload info data)) ∧
    (∀ (info : DevicePropertyInfo) (data : Buf),
      (propertyUpdatePayload info data).propertyId = info.propertyId ∧
      (propertyUpdatePayload info data).propertyName = info.propertyName ∧
      (propertyUpdatePayload info data).dataType = info.dataType ∧
      (propertyUpdatePayload info data).raw = data ∧
      (propertyUpdatePayload info data).value =
        (match info.convert with
          | some f => (f (deserializePropertyValue info.dataType data)).getD
              (deserializePropertyValue info.dataType data)
          | none => deserializePropertyValue info.dataType data)) ∧
    (∀ (ls : List PropListener) (p : PropertyUpdatePayload),
      (∀ l ∈ ls, l.throws = false) →
      runListeners ls p = (ls.map (fun l => (l.tag, p)), false)) ∧
    (∀ (ls : List PropListener) (p : PropertyUpdatePayload),
      runListeners ls p =
        ((ls.takeWhile (fun l => !l.throws) ++
          (ls.dropWhile (fun l => !l.throws)).take 1).map (fun l => (l.tag, p)),
          ls.any (fun l => l.throws))) := by
  refine ⟨?_, ?_, ?_, runListeners_characterization⟩
  · intro table pdid info data hlook
    unfold onPropertyUpdateNotification
    rw [hlook]
  · intro info data
    refine ⟨rfl, rfl, rfl, rfl, rfl⟩
  · intro ls p hnone
    induction ls with
    | nil => rfl
    | cons l rest ih =>
      have hl : l.throws = false := hnone l (List.mem_cons_self l rest)
      simp [runListeners, hl, ih (fun x hx => hnone x (List.mem_cons_of_mem l hx))]

/-- C7 witness: the amended behavior on property 212 with a non throwing
listener pair (both invoked, no error) and on a concrete lookup. -/
theorem C7_listener_isolation_witness :
    (onPropertyUpdateNotification
      [(212, ⟨212, .CN_UINT16, none, "TEMPERATURE_PROFILE_TARGET",
        [⟨0, false⟩, ⟨1, false⟩], true⟩)] 212 [238, 0] =
      runListeners [⟨0, false⟩, ⟨1, false⟩]
        (propertyUpdatePayload ⟨212, .CN_UINT16, none, "TEMPERATURE_PROFILE_TARGET",
          [⟨0, false⟩, ⟨1, false⟩], true⟩ [238, 0])) ∧
    (runListeners [⟨0, false⟩, ⟨1, false⟩]
      (propertyUpdatePayload ⟨212, .CN_UINT16, none, "TEMPERATURE_PROFILE_TARGET",
        [⟨0, false⟩, ⟨1, false⟩], true⟩ [238, 0]) =
      ([(0, propertyUpdatePayload ⟨212, .CN_UINT16, none, "TEMPERATURE_PROFILE_TARGET",
          [⟨0, false⟩, ⟨1, false⟩], true⟩ [238, 0]),
        (1, propertyUpdatePayload ⟨212, .CN_UINT16, none, "TEMPERATURE_PROFILE_TARGET",
          [⟨0, false⟩, ⟨1, false⟩], true⟩ [238, 0])], false)) :=
  ⟨C7_listener_isolation.1
      [(212, ⟨212, .CN_UINT16, none, "TEMPERATURE_PROFILE_TARGET",
        [⟨0, false⟩, ⟨1, false⟩], true⟩)] 212
      ⟨212, .CN_UINT16, none, "TEMPERATURE_PROFILE_TARGET",
        [⟨0, false⟩, ⟨1, false⟩], true⟩ [238, 0] rfl,
    C7_listener_isolation.2.2.1 [⟨0, false⟩, ⟨1, false⟩] _ (by decide)⟩

/-! ## registerPropertyListener bookkeeping (src/src/comfoControlClient.ts,
removeArrayElement from src/unnamed/part_005) -/

/-- removeArrayElement: splice out the element at indexOf when found. The
JavaScript indexOf returns -1 when the element is absent; List.indexOf
returns the length, so the found guard compares against the length. -/
def removeArrayElement (l : List Nat) (x : Nat) : List Nat :=
  let index := l.indexOf x
  if index = l.length then l
  else l.take index ++ l.drop (index + 1)

theorem removeArrayElement_eq_erase : ∀ (l : List Nat) (x : Nat),
    removeArrayElement l x = l.erase x
  | [], _ => rfl
  | a :: t, x => by
    have ih := removeArrayElement_eq_erase t x
    by_cases hax : a = x
    · subst hax
      simp [removeArrayElement, List.indexOf_cons_self, List.erase_cons_head]
    · have hidx : (a :: t).indexOf x = t.indexOf x + 1 :=
        List.indexOf_cons_ne t (by simpa using hax)
      rw [removeArrayElement]
      simp only [hidx, List.length_cons, Nat.add_right_cancel_iff]
      rw [List.erase_cons_tail (by simpa using hax)]
      by_cases hfound : t.indexOf x = t.length
      · rw [if_pos hfound, ← ih, removeArrayElement, if_pos hfound]
      · rw [if_neg hfound, ← ih, removeArrayElement, if_neg hfound]
        simp

/-- The ComfoAirProperties table as (propertyId, name) pairs, in declaration
order (src/unnamed/part_002 lines 74-161). -/
def comfoAirPropertyNames : List (Nat × String) :=
  [ (16, "AWAY_INDICATOR"), (49, "OPERATING_MODE_49"), (56, "OPERATING_MODE_56"),
    (65, "FAN_SPEED_SETTING"), (66, "BYPASS_ACTIVATION_MODE"),
    (67, "TEMPERATURE_PROFILE"), (81, "COUNTDOWN_NEXT_FAN_SPEED_CHANGE"),
    (117, "EXHAUST_FAN_DUTY"), (118, "SUPPLY_FAN_DUTY"),
    (119, "EXHAUST_FAN_FLOW"), (120, "SUPPLY_FAN_FLOW"),
    (121, "EXHAUST_FAN_SPEED"), (122, "SUPPLY_FAN_SPEED"),
    (128, "CURRENT_VENTILATION_POWER_CONSUMPTION"),
    (129, "TOTAL_YEAR_TO_DATE_POWER_CONSUMPTION"),
    (130, "TOTAL_FROM_START_POWER_CONSUMPTION"),
    (144, "PREHEATER_TOTAL_YEAR_TO_DATE_POWER_CONSUMPTION"),
    (145, "PREHEATER_TOTAL_FROM_START_POWER_CONSUMPTION"),
    (146, "PREHEATER_CURRENT_VENTILATION_POWER_CONSUMPTION"),
    (192, "DAYS_LEFT_BEFORE_FILTER_REPLACEMENT"), (209, "CURRENT_RMOT"),
    (212, "TEMPERATURE_PROFILE_TARGET"), (213, "AVOIDED_HEATING_ACTUAL"),
    (214, "AVOIDED_HEATING_YEAR_TO_DATE"), (215, "AVOIDED_HEATING_TOTAL"),
    (216, "AVOIDED_COOLING_ACTUAL"), (217, "AVOIDED_COOLING_YEAR_TO_DATE"),
    (218, "AVOIDED_COOLING_TOTAL"), (221, "SUPPLY_AIR_TEMPERATURE"),
    (227, "BYPASS_STATE"), (274, "EXTRACT_AIR_TEMPERATURE"),
    (275, "EXHAUST_AIR_TEMPERATURE"), (276, "OUTDOOR_AIR_TEMPERATURE"),
    (277, "PREHEATED_OUTDOOR_AIR_TEMPERATURE"), (278, "POST_HEATER_TEMP_BEFORE"),
    (290, "EXTRACT_AIR_HUMIDITY"), (291, "EXHAUST_AIR_HUMIDITY"),
    (292, "OUTDOOR_AIR_HUMIDITY"), (293, "PREHEATED_OUTDOOR_AIR_HUMIDITY"),
    (294, "SUPPLY_AIR_HUMIDITY"), (513, "ANALOG_VOLTAGE_1"),
    (514, "ANALOG_VOLTAGE_2"), (515, "ANALOG_VOLTAGE_3"),
    (516, "ANALOG_VOLTAGE_4"), (785, "COMFOCOOL_COMPRESSOR_STATE") ]

/-- getPropertyName: the key of the first ComfoAirProperties entry whose
propertyId matches. -/
def getPropertyName (id : Nat) : Option String :=
  (comfoAirPropertyNames.find? (fun e => e.1 = id)).map Prod.snd

/-- The DeviceProperty argument of registerPropertyListener: its id and
data type (the fields spread into the bookkeeping entry). -/
structure DeviceProperty where
  propertyId : Nat
  dataType : PropertyDataType
deriving DecidableEq, Repr

/-- One deviceProperties bookkeeping entry as created and mutated by
registerPropertyListener; listeners are identified by reference tags.
The field name listners follows the source spelling. -/
structure DeviceSubscription where
  propertyId : Nat
  dataType : PropertyDataType
  propertyName : String
  listners : List Nat
  registered : Bool
deriving DecidableEq, Repr

/-- ComfoControlClient.getDevicePropertyInfo: fetch the entry for the
property id, or create it (spread property, resolved name with fallback
UNKNOWN, no listeners, not registered) and store it; the result is the
possibly extended table together with the entry. -/
def getDevicePropertyInfo (deviceProperties : List (Nat × DeviceSubscription))
    (property : DeviceProperty) :
    List (Nat × DeviceSubscription) × DeviceSubscription :=
  match deviceProperties.lookup property.propertyId with
  | some info => (deviceProperties, info)
  | none =>
    let info : DeviceSubscription :=
      { propertyId := property.propertyId
        dataType := property.dataType
        propertyName := (getPropertyName property.propertyId).getD "UNKNOWN"
        listners := []
        registered := false }
    (deviceProperties ++ [(property.propertyId, info)], info)

/-- In-place mutation of the entry for a property id in the table. -/
def updateSub (deviceProperties : List (Nat × DeviceSubscription)) (pid : Nat)
    (f : DeviceSubscription → DeviceSubscription) :
    List (Nat × DeviceSubscription) :=
  deviceProperties.map (fun e => if e.1 = pid then (e.1, f e.2) else e)

/-- Whether the CN_RPDO_REQUEST sent by requestPropertyUpdates succeeds. -/
inductive RpdoOutcome where
  | ok
  | error (e : Nat)
deriving DecidableEq, Repr

/-- ComfoControlClient.registerPropertyListener: create-or-fetch the
bookkeeping entry, push the listener; on a successful update request,
requestPropertyUpdates sets registered on the entry; on a failed request,
removeArrayElement deletes the listener from the entry again and the error
is re-thrown. Returns the new table and the thrown error, if any. -/
def registerPropertyListener (deviceProperties : List (Nat × DeviceSubscription))
    (property : DeviceProperty) (listener : Nat) (req : RpdoOutcome) :
    List (Nat × DeviceSubscription) × Option Nat :=
  let fetched := getDevicePropertyInfo deviceProperties property
  let pushed := updateSub fetched.1 property.propertyId
    (fun s => { s with listners := s.listners ++ [listener] })
  match req with
  | .ok =>
    (updateSub pushed property.propertyId (fun s => { s with registered := true }),
      none)
  | .error e =>
    (updateSub pushed property.propertyId
      (fun s => { s with listners := removeArrayElement s.listners listener }),
      some e)

theorem updateSub_updateSub (t : List (Nat × DeviceSubscription)) (pid : Nat)
    (f g : DeviceSubscription → DeviceSubscription) :
    updateSub (updateSub t pid f) pid g = updateSub t pid (fun s => g (f s)) := by
  simp only [updateSub, List.map_map]
  refine List.map_congr_left (fun a _ => ?_)
  by_cases h : a.1 = pid <;> simp [Function.comp, h]

theorem updateSub_of_lookup_none (t : List (Nat × DeviceSubscription)) (pid : Nat)
    (f : DeviceSubscription → DeviceSubscription) (h : t.lookup pid = none) :
    updateSub t pid f = t := by
  induction t with
  | nil => rfl
  | cons e rest ih =>
    obtain ⟨k, v⟩ := e
    simp only [List.lookup] at h
    split at h
    · exact absurd h (by simp)
    · rename_i hbeq
      have hk : k ≠ pid := fun hkp => by simp [hkp] at hbeq
      simp only [updateSub, List.map_cons]
      rw [if_neg (by simpa using hk)]
      exact congrArg (List.cons (k, v)) (ih h)

theorem updateSub_append_singleton (t : List (Nat × DeviceSubscription))
    (pid : Nat) (v : DeviceSubscription)
    (f : DeviceSubscription → DeviceSubscription) (h : t.lookup pid = none) :
    updateSub (t ++ [(pid, v)]) pid f = t ++ [(pid, f v)] := by
  have h1 : updateSub (t ++ [(pid, v)]) pid f =
      updateSub t pid f ++ updateSub [(pid, v)] pid f := by
    simp [updateSub]
  rw [h1, updateSub_of_lookup_none t pid f h]
  simp [updateSub]

/-- C9 counterexample: when the listener being registered is already present
in the entry (registering the same listener reference twice), the rollback
removes the FIRST occurrence found by indexOf, not the just-appended one:
the previously appended listener list [0, 1] ends up as [1, 0], so the
entry does not remain unchanged and the removed element is not the
just-appended occurrence. -/
theorem C9_register_rollback_counterexample :
    (registerPropertyListener
        [(16, ⟨16, .CN_UINT8, "AWAY_INDICATOR", [0, 1], true⟩)]
        ⟨16, .CN_UINT8⟩ 0 (.error 5) =
      ([(16, ⟨16, .CN_UINT8, "AWAY_INDICATOR", [1, 0], true⟩)], some 5)) ∧
    [1, 0] ≠ ([0, 1] : List Nat) := by
  exact ⟨rfl, by decide⟩

/-- C9 (amended): registerPropertyListener creates-or-fetches the
bookkeeping entry for the property id and appends the listener. If the
update request fails, the error is re-thrown and the entry remains present
with every other field and every other entry unchanged, but the listener
removed by the rollback is the first occurrence equal to the appended one:
(1) on an existing entry the result is exactly the old table with that
entry's listener list replaced by removeArrayElement (old ++ [L]) L;
(2) when L was not already a listener this equals the old list, i.e. the
rollback is exact; (3) in general the rollback restores the listener
multiset (all element counts); (4) on a fresh property the entry is still
created, remaining with no listeners and registered = false; (5) on
success the listener list is old ++ [L] and registered is set. -/
theorem C9_register_rollback :
    (∀ (table : List (Nat × DeviceSubscription)) (property : DeviceProperty)
       (info : DeviceSubscription) (L e : Nat),
       table.lookup property.propertyId = some info →
       registerPropertyListener table property L (.error e) =
         (updateSub table property.propertyId
            (fun s => { s with
              listners := removeArrayElement (s.listners ++ [L]) L }),
          some e)) ∧
    (∀ (l : List Nat) (L : Nat), L ∉ l →
       removeArrayElement (l ++ [L]) L = l) ∧
    (∀ (l : List Nat) (L x : Nat),
       (removeArrayElement (l ++ [L]) L).count x = l.count x) ∧
    (∀ (table : List (Nat × DeviceSubscription)) (property : DeviceProperty)
       (L e : Nat),
       table.lookup property.propertyId = none →
       registerPropertyListener table property L (.error e) =
         (table ++ [(property.propertyId,
            { propertyId := property.propertyId
              dataType := property.dataType
              propertyName := (getPropertyName property.propertyId).getD "UNKNOWN"
              listners := []
              registered := false })], some e)) ∧
    (∀ (table : List (Nat × DeviceSubscription)) (property : DeviceProperty)
       (info : DeviceSubscription) (L : Nat),
       table.lookup property.propertyId = some info →
       registerPropertyListener table property L .ok =
         (updateSub table property.propertyId
            (fun s => { s with listners := s.listners ++ [L],
                               registered := true }), none)) := by
  refine ⟨?_, ?_, ?_, ?_, ?_⟩
  · intro table property info L e hlook
    simp only [registerPropertyListener, getDevicePropertyInfo, hlook,
      updateSub_updateSub]
  · intro l L h
    rw [removeArrayElement_eq_erase,
      List.erase_append_right _ (by simpa using h)]
    simp
  · intro l L x
    rw [removeArrayElement_eq_erase]
    by_cases hx : x = L
    · subst hx
      rw [List.count_erase_self]
      simp
    · rw [List.count_erase_of_ne (by simpa using hx)]
      simp [hx]
  · intro table property L e hlook
    simp only [registerPropertyListener, getDevicePropertyInfo, hlook,
      updateSub_updateSub]
    rw [updateSub_append_singleton table property.propertyId _ _ hlook]
    simp [removeArrayElement, List.indexOf_cons_self]
  · intro table property info L hlook
    simp only [registerPropertyListener, getDevicePropertyInfo, hlook,
      updateSub_updateSub]

/-- C9 witness: concrete runs of the three register scenarios on property 16
(AWAY_INDICATOR): failed request on an existing entry with a not yet present
listener rolls the entry back exactly; failed request on a fresh property
still leaves the created entry behind; successful request appends the
listener and marks the entry registered. -/
theorem C9_register_rollback_witness :
    (registerPropertyListener
        [(16, ⟨16, .CN_UINT8, "AWAY_INDICATOR", [3], true⟩)]
        ⟨16, .CN_UINT8⟩ 4 (.error 9) =
      ([(16, ⟨16, .CN_UINT8, "AWAY_INDICATOR", [3], true⟩)], some 9)) ∧
    (registerPropertyListener [] ⟨2, .CN_UINT16⟩ 5 (.error 9) =
      ([(2, ⟨2, .CN_UINT16, "UNKNOWN", [], false⟩)], some 9)) ∧
    (registerPropertyListener
        [(16, ⟨16, .CN_UINT8, "AWAY_INDICATOR", [3], true⟩)]
        ⟨16, .CN_UINT8⟩ 4 .ok =
      ([(16, ⟨16, .CN_UINT8, "AWAY_INDICATOR", [3, 4], true⟩)], none)) := by
  refine ⟨?_, ?_, ?_⟩
  · rw [C9_register_rollback.1
      [(16, ⟨16, .CN_UINT8, "AWAY_INDICATOR", [3], true⟩)]
      ⟨16, .CN_UINT8⟩ ⟨16, .CN_UINT8, "AWAY_INDICATOR", [3], true⟩ 4 9 rfl]
    rfl
  · rw [C9_register_rollback.2.2.2.1 [] ⟨2, .CN_UINT16⟩ 5 9 rfl]
    rfl
  · rw [C9_register_rollback.2.2.2.2
      [(16, ⟨16, .CN_UINT8, "AWAY_INDICATOR", [3], true⟩)]
      ⟨16, .CN_UINT8⟩ ⟨16, .CN_UINT8, "AWAY_INDICATOR", [3], true⟩ 4 rfl]
    rfl

/-! ## Discovery operation (src/src/discoveryOperation.ts) -/

/-- The response part of a parsed GatewayDiscovery datagram: the device uuid
bytes, the reported address and the version. -/
structure GatewayDiscoveryResponse where
  uuid : Buf
  address : String
  version : Nat
deriving DecidableEq, Repr

/-- ComfoControlServerInfo: the record built from a discovery response; the
uuid is the hex string of the uuid bytes and the mac is
uuid.slice(uuid.length - 12), the String.slice start being clamped like a
Buffer index. -/
structure ComfoControlServerInfo where
  address : String
  port : Nat
  uuid : List HexDigit
  version : Nat
  mac : List HexDigit
deriving DecidableEq, Repr

/-- DiscoveryOperation.parseDiscoveryResponse on a datagram that decoded to
a response: port is the operation port, uuid the hex string of the response
uuid bytes, mac its last 12 hex characters. -/
def parseDiscoveryResponse (port : Nat) (r : GatewayDiscoveryResponse) :
    ComfoControlServerInfo :=
  let uuid := bytesToHexDigits r.uuid
  { address := r.address
    port := port
    version := r.version
    uuid := uuid
    mac := uuid.drop (jsIndex uuid.length ((uuid.length : Int) - 12)) }

/-- The mutable state of one DiscoveryOperation run: the collected devices,
whether the DeferredPromise is still pending (discoveryPromise defined),
how the original promise was settled if it was, whether cleanup ran
(timers cleared and socket closed), and the discover events emitted. -/
structure DiscoveryState where
  discoveredDevices : List ComfoControlServerInfo
  events : List ComfoControlServerInfo
  promiseActive : Bool
  settled : Option (Except String (List ComfoControlServerInfo))
  cleanedUp : Bool
deriving Repr

/-- The state set up by discover(): nothing collected, promise pending. -/
def discoveryInit : DiscoveryState :=
  { discoveredDevices := []
    events := []
    promiseActive := true
    settled := none
    cleanedUp := false }

/-- DiscoveryOperation.cleanup: timers cleared, promise dropped, socket
closed. -/
def discoveryCleanup (st : DiscoveryState) : DiscoveryState :=
  { st with promiseActive := false, cleanedUp := true }

/-- DiscoveryOperation.stop: resolve the promise, if still pending, with the
devices collected so far, then cleanup. -/
def discoveryStop (st : DiscoveryState) : DiscoveryState :=
  discoveryCleanup
    { st with settled :=
        if st.promiseActive then some (.ok st.discoveredDevices) else st.settled }

/-- onError: reject the promise, if still pending, then cleanup. -/
def discoveryError (st : DiscoveryState) (msg : String) : DiscoveryState :=
  discoveryCleanup
    { st with settled :=
        if st.promiseActive then some (.error msg) else st.settled }

/-- The guard options.limit && discoveredDevices.length >= options.limit:
an absent or zero (falsy) limit never stops the run. -/
def limitReached (limit : Option Nat) (count : Nat) : Bool :=
  match limit with
  | none => false
  | some l => decide (l ≠ 0) && decide (l ≤ count)

/-- One external stimulus of a discovery run: an incoming datagram (decoded
to a response, or undecodable) or the overall timeout firing. -/
inductive DiscoveryEv where
  | datagram (d : Option GatewayDiscoveryResponse)
  | timeoutFires
deriving DecidableEq, Repr

/-- One step of the discovery run. After cleanup the socket is closed and
the timers are cancelled, so no further stimulus is delivered and the state
is absorbing. A datagram that fails to decode rejects the run via onError.
A decoded response already represented by uuid is dropped; a new one is
appended, raises a discover event, and stops the run when the configured
limit is reached. The timeout firing stops the run. -/
def discoveryHandleEvent (port : Nat) (limit : Option Nat)
    (st : DiscoveryState) (ev : DiscoveryEv) : DiscoveryState :=
  if st.cleanedUp then st
  else
    match ev with
    | .timeoutFires => discoveryStop st
    | .datagram none => discoveryError st "Invalid discovery response"
    | .datagram (some r) =>
      let device := parseDiscoveryResponse port r
      if st.discoveredDevices.any (fun b => b.uuid = device.uuid) then st
      else
        let st1 := { st with
          discoveredDevices := st.discoveredDevices ++ [device]
          events := st.events ++ [device] }
        if limitReached limit st1.discoveredDevices.length then discoveryStop st1
        else st1

/-- A whole run: the stimuli processed in arrival order. -/
def runDiscovery (port : Nat) (limit : Option Nat)
    (evs : List DiscoveryEv) : DiscoveryState :=
  evs.foldl (discoveryHandleEvent port limit) discoveryInit

theorem discoveryHandleEvent_inv (port : Nat) (limit : Option Nat)
    (st : DiscoveryState) (ev : DiscoveryEv)
    (h1 : st.events = st.discoveredDevices)
    (h2 : st.discoveredDevices.Pairwise (fun a b => a.uuid ≠ b.uuid)) :
    (discoveryHandleEvent port limit st ev).events =
      (discoveryHandleEvent port limit st ev).discoveredDevices ∧
    (discoveryHandleEvent port limit st ev).discoveredDevices.Pairwise
      (fun a b => a.uuid ≠ b.uuid) := by
  unfold discoveryHandleEvent
  by_cases hc : st.cleanedUp
  · simp [hc, h1, h2]
  · cases ev with
    | timeoutFires => simp [hc, discoveryStop, discoveryCleanup, h1, h2]
    | datagram d =>
      cases d with
      | none => simp [hc, discoveryError, discoveryCleanup, h1, h2]
      | some r =>
        by_cases hany : st.discoveredDevices.any
            (fun b => b.uuid = (parseDiscoveryResponse port r).uuid)
        · simp [hc, hany, h1, h2]
        · have hfresh : ∀ b ∈ st.discoveredDevices,
              b.uuid ≠ (parseDiscoveryResponse port r).uuid := by
            simpa using hany
          by_cases hlim : limitReached limit (st.discoveredDevices.length + 1)
          all_goals
            simp [hc, hany, hlim, discoveryStop, discoveryCleanup, h1,
              List.pairwise_append, h2]
          all_goals exact hfresh

theorem discoveryFoldl_inv (port : Nat) (limit : Option Nat) :
    ∀ (evs : List DiscoveryEv) (st : DiscoveryState),
    st.events = st.discoveredDevices →
    st.discoveredDevices.Pairwise (fun a b => a.uuid ≠ b.uuid) →
    (evs.foldl (discoveryHandleEvent port limit) st).events =
      (evs.foldl (discoveryHandleEvent port limit) st).discoveredDevices ∧
    (evs.foldl (discoveryHandleEvent port limit) st).discoveredDevices.Pairwise
      (fun a b => a.uuid ≠ b.uuid)
  | [], _, h1, h2 => ⟨h1, h2⟩
  | ev :: rest, st, h1, h2 => by
    obtain ⟨g1, g2⟩ := discoveryHandleEvent_inv port limit st ev h1 h2
    simpa using discoveryFoldl_inv port limit rest
      (discoveryHandleEvent port limit st ev) g1 g2

/-- C10: discovery deduplication and limit. (1) Two datagrams whose
responses carry the same uuid bytes, whatever their addresses, followed by
the timeout yield exactly one discover event and the run resolves with that
single device. (2) In any run the discover events are exactly the collected
devices, in order, and the collected devices have pairwise distinct uuids.
(3) When a nonzero limit is configured and a fresh device brings the count
up to it, that datagram alone stops the run: the promise resolves with all
devices collected so far, timers are cancelled and the socket is closed,
with no timeout having fired. (4) After cleanup the state absorbs every
further stimulus, so a later timeout firing changes nothing. -/
theorem C10_discovery_dedup_limit :
    (∀ (port : Nat) (r1 r2 : GatewayDiscoveryResponse), r1.uuid = r2.uuid →
      (runDiscovery port none
          [.datagram (some r1), .datagram (some r2), .timeoutFires]).events =
        [parseDiscoveryResponse port r1] ∧
      (runDiscovery port none
          [.datagram (some r1), .datagram (some r2), .timeoutFires]).settled =
        some (.ok [parseDiscoveryResponse port r1])) ∧
    (∀ (port : Nat) (limit : Option Nat) (evs : List DiscoveryEv),
      (runDiscovery port limit evs).events =
        (runDiscovery port limit evs).discoveredDevices ∧
      (runDiscovery port limit evs).discoveredDevices.Pairwise
        (fun a b => a.uuid ≠ b.uuid)) ∧
    (∀ (port l : Nat) (st : DiscoveryState) (r : GatewayDiscoveryResponse),
      st.cleanedUp = false → st.promiseActive = true →
      st.discoveredDevices.any
        (fun b => b.uuid = (parseDiscoveryResponse port r).uuid) = false →
      l ≠ 0 → l ≤ st.discoveredDevices.length + 1 →
      discoveryHandleEvent port (some l) st (.datagram (some r)) =
        { discoveredDevices :=
            st.discoveredDevices ++ [parseDiscoveryResponse port r]
          events := st.events ++ [parseDiscoveryResponse port r]
          promiseActive := false
          settled := some (.ok
            (st.discoveredDevices ++ [parseDiscoveryResponse port r]))
          cleanedUp := true }) ∧
    (∀ (port : Nat) (limit : Option Nat) (st : DiscoveryState)
       (ev : DiscoveryEv), st.cleanedUp = true →
      discoveryHandleEvent port limit st ev = st) := by
  refine ⟨?_, ?_, ?_, ?_⟩
  · intro port r1 r2 h
    have huuid : (parseDiscoveryResponse port r2).uuid =
        (parseDiscoveryResponse port r1).uuid := by
      simp [parseDiscoveryResponse, h]
    constructor <;>
      simp [runDiscovery, discoveryHandleEvent, discoveryInit, discoveryStop,
        discoveryCleanup, limitReached, huuid]
  · intro port limit evs
    exact discoveryFoldl_inv port limit evs discoveryInit rfl List.Pairwise.nil
  · intro port l st r hclean hactive hany hl0 hle
    have hlim : limitReached (some l)
        (st.discoveredDevices.length + 1) = true := by
      simp only [limitReached, Bool.and_eq_true, decide_eq_true_eq]
      exact ⟨hl0, by omega⟩
    simp [discoveryHandleEvent, hclean, hany, hlim, discoveryStop,
      discoveryCleanup, hactive]
  · intro port limit st ev hclean
    simp [discoveryHandleEvent, hclean]

/-- C10 witness: a run on port 56747 receiving the same uuid bytes 0x1234
from two different addresses yields one event and resolves with one device;
with limit 1, discoveryInit stops on the first fresh response without any
timeout event; a cleaned-up run absorbs a late timeout. -/
theorem C10_discovery_dedup_limit_witness :
    ((runDiscovery 56747 none
        [.datagram (some ⟨[18, 52], "192.168.1.10", 1⟩),
         .datagram (some ⟨[18, 52], "192.168.1.11", 1⟩),
         .timeoutFires]).events =
      [parseDiscoveryResponse 56747 ⟨[18, 52], "192.168.1.10", 1⟩] ∧
     (runDiscovery 56747 none
        [.datagram (some ⟨[18, 52], "192.168.1.10", 1⟩),
         .datagram (some ⟨[18, 52], "192.168.1.11", 1⟩),
         .timeoutFires]).settled =
      some (.ok [parseDiscoveryResponse 56747 ⟨[18, 52], "192.168.1.10", 1⟩])) ∧
    (discoveryHandleEvent 56747 (some 1) discoveryInit
        (.datagram (some ⟨[18, 52], "192.168.1.10", 1⟩)) =
      { discoveredDevices := [parseDiscoveryResponse 56747 ⟨[18, 52], "192.168.1.10", 1⟩]
        events := [parseDiscoveryResponse 56747 ⟨[18, 52], "192.168.1.10", 1⟩]
        promiseActive := false
        settled := some (.ok
          [parseDiscoveryResponse 56747 ⟨[18, 52], "192.168.1.10", 1⟩])
        cleanedUp := true }) ∧
    (discoveryHandleEvent 56747 (some 1)
        (discoveryCleanup discoveryInit) .timeoutFires =
      discoveryCleanup discoveryInit) := by
  refine ⟨?_, ?_, ?_⟩
  · exact C10_discovery_dedup_limit.1 56747
      ⟨[18, 52], "192.168.1.10", 1⟩ ⟨[18, 52], "192.168.1.11", 1⟩ rfl
  · have h := C10_discovery_dedup_limit.2.2.1 56747 1 discoveryInit
      ⟨[18, 52], "192.168.1.10", 1⟩ rfl rfl rfl (by decide) (by decide)
    rw [h]
    rfl
  · exact C10_discovery_dedup_limit.2.2.2 56747 (some 1)
      (discoveryCleanup discoveryInit) .timeoutFires rfl
